import Mathlib

/-!
Verification of the pySeaFlux unit-check and flux-calculation core.

The Python arrays of `seaflux.check_units.check_array_bounds` are modelled as
`List (Option ℚ)`: `none` stands for a NaN element (NaN compares false against
any bound in numpy, which `isOutside` reproduces), `some v` for a finite float
value.  Float arithmetic on the values themselves is modelled by exact
rationals; the function only compares, counts and masks, so this is faithful.

The numeric formula layer (`solubility`, `fco2_pco2_conversion`,
`gas_transfer_velocity`, `flux_calculations`) is modelled over `ℝ`, with
`Real.exp`, `Real.log` and real powers standing for the numpy float versions.
The unit-check calls that those functions make on scalar inputs hit the
`arr.size <= 2` early return of `check_array_bounds` and are the identity;
`checkScalar` records that fact (and `check_scalar_eq_list_check` ties it to
the list model).
-/

set_option maxHeartbeats 2000000

open Real

namespace SeaFlux

/-- Policy argument of `check_array_bounds` (the Python `action` string;
any other string hits the final `else` branch, which the model folds into
the `raise`/no-violation path reachable with these four values). -/
inductive Action where
  | raise
  | warn
  | quiet
  | ignore
  deriving DecidableEq, Repr

/-- Python exception raised by `check_array_bounds`: `UnitError` for bound
violations, plain `Exception` for the final `else` of the action dispatch. -/
inductive PyError where
  | unitError (msg : String)
  | exception (msg : String)
  deriving DecidableEq, Repr

/-- The element-wise test `(arr < lims[0]) | (arr > lims[1])`.  A NaN element
(`none`) compares false on both sides, exactly as in numpy. -/
def isOutside (lims : ℚ × ℚ) (x : Option ℚ) : Bool :=
  match x with
  | none => false
  | some v => decide (v < lims.1) || decide (lims.2 < v)

/-- The masking step `arr[outside] = nan` of the `warn`/`quiet` branches. -/
def maskOutside (lims : ℚ × ℚ) (arr : List (Option ℚ)) : List (Option ℚ) :=
  arr.map fun x => if isOutside lims x then none else x

/-- Message of the majority-violation `UnitError`. -/
def halfMsg (name : String) : String :=
  "More than half of the values in " ++ name ++
    " are outside the limits. Check that input contains the correct units."

/-- Message of the `raise`-action `UnitError` (the count interpolation of the
source is elided; no claim depends on the text). -/
def outsideMsg (name : String) : String :=
  "There are values that do not fall within the given limits of " ++ name

/-- Message of the invalid-action `Exception`. -/
def badActionMsg : String :=
  "action must have raise/warn/quiet/ignore as inputs"

/-- Model of `seaflux.check_units.check_array_bounds`, following the source
line by line: the `size <= 2` early return, the exclusive bound test, the
majority-violation check against `non_nan_count * 0.5` (placed before the
action dispatch), and the `if any(outside) & (action == "raise") / elif
warn / elif quiet / elif ignore / else raise Exception` chain.  Note that the
final `else` is reachable for `action == "raise"` when nothing is outside. -/
def check_array_bounds (arr : List (Option ℚ)) (lims : ℚ × ℚ)
    (action : Action) (name : String) : Except PyError (List (Option ℚ)) :=
  if arr.length ≤ 2 then .ok arr
  else
    let outsideCount := arr.countP (isOutside lims)
    let nonNanCount := arr.countP (fun x => x.isSome)
    if (nonNanCount : ℚ) * (1 / 2) < (outsideCount : ℚ) then
      .error (.unitError (halfMsg name))
    else if 0 < outsideCount ∧ action = .raise then
      .error (.unitError (outsideMsg name))
    else if action = .warn then
      .ok (maskOutside lims arr)
    else if action = .quiet then
      .ok (maskOutside lims arr)
    else if action = .ignore then
      .ok arr
    else
      .error (.exception badActionMsg)

/-- Model of `check_units.temp_K`: `check_array_bounds` with limits
`(270, 318.5)`, action `warn` and name `"temperature (K)"`. -/
def temp_K (arr : List (Option ℚ)) : Except PyError (List (Option ℚ)) :=
  check_array_bounds arr (270, 318.5) Action.warn "temperature (K)"

/-! Scalar unit checks.  Every formula function of the package funnels its
inputs through `check_array_bounds`-based checkers (`check.temp_K`,
`check.salt`, ...).  On a scalar input the checker sees a size-1 array
(`ndmin=1`) and returns it unchanged through the `arr.size <= 2` early
return, whatever the limits and action; `checkScalar` is that identity,
and the theorem `check_scalar_eq_list_check` below connects it to the
list model. -/

/-- Scalar instance of a unit check: `check_array_bounds` on a size-1 array
returns the array unchanged, so the scalar check is the identity. -/
def checkScalar (_lims : ℝ × ℝ) (x : ℝ) : ℝ := x

/-- Model of `gas_transfer_velocity.schmidt_number` (Jähne 1987 /
Wanninkhof 2014 Table 1); input in degrees C. -/
noncomputable def schmidt_number (temp_C : ℝ) : ℝ :=
  let T := checkScalar (270, 318.5) temp_C
  2116.8 + (-136.25) * T + 4.7353 * T ^ 2 + (-0.092307) * T ^ 3 +
    0.0007555 * T ^ 4

/-- Model of `auxiliary_equations.temperature_correction` (Takahashi 1993). -/
noncomputable def temperature_correction (temp_in temp_out : ℝ) : ℝ :=
  exp (0.0433 * (temp_out - temp_in) - 4.35e-5 * (temp_out ^ 2 - temp_in ^ 2))

/-- Model of `fco2_pco2_conversion.virial_coeff`: the Lewis & Wallace
correction factor `exp(P*(B + 2*x2*d)/(R*T))`; `xCO2_mol = none` takes the
`x2 = 1` branch. -/
noncomputable def virial_coeff (temp_K pres_atm : ℝ) (xCO2_mol : Option ℝ) : ℝ :=
  let T := checkScalar (270, 318.5) temp_K
  let P := checkScalar (0.5, 1.5) pres_atm
  let R : ℝ := 82.057
  let B := -1636.75 + 12.0408 * T - 0.0327957 * T ^ 2 + 3.16528e-5 * T ^ 3
  let d := 57.7 - 0.118 * T
  let x2 : ℝ := match xCO2_mol with
    | some C => (1 - checkScalar (5e-6, 0.08) C) ^ 2
    | none => 1
  exp (P * (B + 2 * x2 * d) / (R * T))

/-- Model of `fco2_pco2_conversion.pCO2_to_fCO2` on scalars.  `pres_hPa` and
`tempEQ_C` are `Option`s exactly as the Python `None` defaults. -/
noncomputable def pCO2_to_fCO2 (pCO2SW_uatm tempSW_C : ℝ)
    (pres_hPa tempEQ_C : Option ℝ) : ℝ :=
  let tempEQ := tempEQ_C.getD tempSW_C
  let pres := pres_hPa.getD 1013.25
  let pCO2sw := checkScalar (5e-6, 0.08) (pCO2SW_uatm * 1e-6)
  let Tsw := checkScalar (270, 318.5) (tempSW_C + 273.15)
  let Teq := checkScalar (270, 318.5) (tempEQ + 273.15)
  let Peq := checkScalar (0.5, 1.5) (pres / 1013.25)
  let dT := temperature_correction Tsw Teq
  let xCO2eq := pCO2sw * dT / Peq
  let fCO2sw := pCO2sw * virial_coeff Tsw Peq (some xCO2eq)
  fCO2sw * 1e6

/-- Model of `fco2_pco2_conversion.fCO2_to_pCO2` on scalars.  When
`tempEQ_C = none` the source sets `dT = 1.0` without calling
`temperature_correction`. -/
noncomputable def fCO2_to_pCO2 (fCO2SW_uatm tempSW_C : ℝ) (pres_hPa : ℝ)
    (tempEQ_C : Option ℝ) : ℝ :=
  let tempEQ := tempEQ_C.getD tempSW_C
  let fCO2sw := checkScalar (5e-6, 0.08) (fCO2SW_uatm * 1e-6)
  let Tsw := checkScalar (270, 318.5) (tempSW_C + 273.15)
  let Teq := checkScalar (270, 318.5) (tempEQ + 273.15)
  let Peq := checkScalar (0.5, 1.5) (pres_hPa / 1013.25)
  let dT : ℝ := match tempEQ_C with
    | none => 1.0
    | some _ => temperature_correction Tsw Teq
  let xCO2eq := fCO2sw * dT / Peq
  let pCO2SW := fCO2sw / virial_coeff Tsw Peq (some xCO2eq)
  pCO2SW * 1e6

/-- Model of `vapour_pressure.weiss1980`: seawater vapour pressure in atm. -/
noncomputable def weiss1980 (salt temp_K : ℝ) : ℝ :=
  let T := checkScalar (270, 318.5) temp_K
  let S := checkScalar (0, 50) salt
  exp (24.4543 - 67.4509 * (100 / T) - 4.8489 * log (T / 100) - 0.000544 * S)

/-- Model of `solubility.solubility_weiss1974` (scalar path; the metadata
dict of the source is dropped).  Coefficients from Wanninkhof (2014). -/
noncomputable def solubility_weiss1974 (salt temp_K press_atm : ℝ) : ℝ :=
  let T := checkScalar (270, 318.5) temp_K
  let S := checkScalar (0, 50) salt
  let P := checkScalar (0.5, 1.5) press_atm
  let T100 := T / 100
  let K0 := exp (-58.0931 + 90.5069 * (100 / T) + 22.2940 * log T100 +
    S * (0.027766 + (-0.025888) * T100 + 0.0050578 * T100 ^ 2))
  K0 / (P - weiss1980 S T)

/-- Model of `gas_transfer_velocity.k_Li86` (Liss & Merlivat 1986) on a
scalar wind speed: the masks `i1 : U <= 3.6`, `i2 : (U > 3.6) & (U < 13.0)`
and `i3 : U >= 13.0` become the if-chain below. -/
noncomputable def k_Li86 (wind_ms temp_C : ℝ) : ℝ :=
  let U := checkScalar (0, 50) wind_ms
  let Sc := schmidt_number temp_C
  if U ≤ 3.6 then (0.17 * U) * (Sc / 600) ^ (-(2 : ℝ) / 3)
  else if U < 13.0 then ((U - 3.4) * 2.8) * (600 / Sc) ^ ((0.5 : ℝ))
  else ((U - 8.4) * 5.9) * (600 / Sc) ^ ((0.5 : ℝ))

/-- Model of `gas_transfer_velocity.k_Ni00` (Nightingale et al. 2000), the
default `kw_func` of `flux_bulk`. -/
noncomputable def k_Ni00 (wind_ms temp_C : ℝ) : ℝ :=
  let U := checkScalar (0, 50) wind_ms
  let Sc := schmidt_number temp_C
  (0.333 * U + 0.222 * U ^ 2) * (600 / Sc) ^ ((0.5 : ℝ))

/-- Round half to even, the rounding mode of `np.around`.  Only the
tie-breaking differs from Mathlib's `round` (which rounds half up). -/
noncomputable def roundHalfEven (x : ℝ) : ℤ :=
  if Int.fract x = 1 / 2 then (if Even ⌊x⌋ then ⌊x⌋ else ⌊x⌋ + 1)
  else round x

/-- Model of `np.around(x, 4)`. -/
noncomputable def around4 (x : ℝ) : ℝ :=
  (roundHalfEven (x * 10 ^ 4) : ℝ) / 10 ^ 4

/-- The second-moment cell `U2 = Uavg**2 + Ustd**2` of `kw_scaled`; NaN
(`none`) propagates as in numpy. -/
noncomputable def u2cell : Option ℝ → Option ℝ → Option ℝ
  | some a, some s => some (a ^ 2 + s ^ 2)
  | _, _ => none

/-- The squared-average cell `Uavg**2` of `kw_scaled`. -/
noncomputable def uavg2cell : Option ℝ → Option ℝ
  | some a => some (a ^ 2)
  | none => none

/-- The cell `Sc660 = (Sc/660)**-0.5` of `kw_scaled`.  A NaN temperature
(`none`) gives NaN; the temperature is carried as a rational (every Python
float is one) so that the `check.temp_K` bound check `schmidt_number`
performs on the whole grid can reuse the executable `check_array_bounds`
model.  The Schmidt quartic is strictly positive at every real temperature
(theorem `schmidt_number_pos_all` below), so numpy's inf/NaN on a
non-positive power base never arises and the cell is always finite. -/
noncomputable def sc660cell : Option ℚ → Option ℝ
  | none => none
  | some t => some ((schmidt_number (t : ℝ) / 660) ^ (-(0.5) : ℝ))

/-- The per-cell weight of `calculate_scaled_alpha`:
`weight = nan_to_num(1 - ice); weight[isnan(U2) | isnan(Sc)] = 0`. -/
noncomputable def kwWeight (u2 sc660 ice : Option ℝ) : ℝ :=
  if u2.isNone || sc660.isNone then 0
  else match ice with
    | none => 0
    | some v => 1 - v

/-- One term of `nansum(U2 * Sc * weight)`: a NaN product is dropped
(counted as 0) by `nansum`. -/
noncomputable def kwNumerTerm (u2 sc660 : Option ℝ) (w : ℝ) : ℝ :=
  match u2, sc660 with
  | some u, some s => u * s * w
  | _, _ => 0

/-- The weight list of `calculate_scaled_alpha` for given cell lists. -/
noncomputable def kwWeights (u2 sc660 ice : List (Option ℝ)) : List ℝ :=
  List.zipWith (fun p i => kwWeight p.1 p.2 i) (u2.zip sc660) ice

/-- The `nansum(U2 * Sc * weight)` term list of `calculate_scaled_alpha`. -/
noncomputable def kwNumer (u2 sc660 ice : List (Option ℝ)) : List ℝ :=
  List.zipWith (fun p w => kwNumerTerm p.1 p.2 w) (u2.zip sc660)
    (kwWeights u2 sc660 ice)

/-- Model of the inner `calculate_scaled_alpha` of
`gas_transfer_velocity.kw_scaled`:
`a = around(scaling / (nansum(U2*Sc*weight) / nansum(weight)), 4)`.
Real division by zero is 0 in Lean where numpy would warn and give NaN;
no claim touches that degenerate case. -/
noncomputable def calculate_scaled_alpha (u2 sc660 ice : List (Option ℝ))
    (scaling : ℝ) : ℝ :=
  around4 (scaling /
    ((kwNumer u2 sc660 ice).sum / (kwWeights u2 sc660 ice).sum))

/-- Model of `gas_transfer_velocity.kw_scaled` (the attrs dict of the source
is dropped, except for the scalar `alpha`, returned as second component).
`Sc = schmidt_number(T)` first calls `check.temp_K(temp_C + 273.15)` on the
whole grid and discards its return value, so the only observable effect of
that call is the raised majority-violation `UnitError` (the action is
`warn`, whose masked copy is thrown away: the Schmidt number is then built
from the original, possibly out-of-range, temperatures).  Note the source
computes `a` from `U2 = Uavg**2 + Ustd**2` but returns
`k = a * Uavg2 * Sc660` built from `Uavg2 = Uavg**2` alone. -/
noncomputable def kw_scaled (wind_speed wind_grid_stdev : List (Option ℝ))
    (temp_C : List (Option ℚ)) (ice_frac : List (Option ℝ)) (scaling : ℝ) :
    Except PyError (List (Option ℝ) × ℝ) :=
  let u2 := List.zipWith u2cell wind_speed wind_grid_stdev
  let uavg2 := wind_speed.map uavg2cell
  match temp_K (temp_C.map (Option.map (fun t => t + 273.15))) with
  | .error e => .error e
  | .ok _ =>
    let sc660 := temp_C.map sc660cell
    let a := calculate_scaled_alpha u2 sc660 ice_frac scaling
    .ok (List.zipWith (fun x y => match x, y with
      | some u, some s => some (a * u * s)
      | _, _ => none) uavg2 sc660, a)

/-- Model of `flux_calculations.flux_bulk` on scalars (the metadata dict of
the source is dropped; the `preserve_xda` wrapper is a no-op on scalars).
All unit checks are scalar checks, hence the identity; note that
`pCO2_to_fCO2` is called with the pCO2 values already converted to atm and
with the temperature already in Kelvin, exactly as in the source. -/
noncomputable def flux_bulk (temp_bulk_C salt_bulk pCO2_bulk_uatm
    pCO2_air_uatm press_hPa wind_ms : ℝ) (kw_func : ℝ → ℝ → ℝ) : ℝ :=
  let press_atm := press_hPa / 1013.25
  let SSTfnd_C := temp_bulk_C
  let SSTfnd_K₀ := SSTfnd_C + 273.15
  let pCO2sea₀ := pCO2_bulk_uatm * 1e-6
  let pCO2air₀ := pCO2_air_uatm * 1e-6
  let SSTfnd_K := checkScalar (270, 318.5) SSTfnd_K₀
  let SSSfnd := checkScalar (0, 50) salt_bulk
  let press_atm' := checkScalar (0.5, 1.5) press_atm
  let pCO2sea := checkScalar (5e-6, 0.08) pCO2sea₀
  let pCO2air := checkScalar (5e-6, 0.08) pCO2air₀
  let wind := checkScalar (0, 50) wind_ms
  let fCO2sea := pCO2_to_fCO2 pCO2sea SSTfnd_K (some press_atm') none
  let fCO2air := pCO2_to_fCO2 pCO2air SSTfnd_K (some press_atm') none
  let K0blk := solubility_weiss1974 SSSfnd SSTfnd_K press_atm'
  let mC : ℝ := 12.0108 * 1000
  let kw := kw_func wind SSTfnd_C * (24 / 100)
  kw * K0blk * (fCO2sea - fCO2air) * mC

/-! ## Theorems -/

/-- On a size-1 array every unit check is the identity (the `arr.size <= 2`
early return), which is what `checkScalar` records for the scalar pipeline. -/
theorem check_scalar_eq_list_check (x : ℚ) (lims : ℚ × ℚ) (action : Action)
    (name : String) :
    check_array_bounds [some x] lims action name = .ok [some x] := by
  simp [check_array_bounds]

/-- Counting missing markers after masking: each out-of-range element (always
a `some`) becomes `none`, so the `none` count grows by exactly the number of
out-of-range elements. -/
theorem countP_maskOutside (lims : ℚ × ℚ) (arr : List (Option ℚ)) :
    (maskOutside lims arr).countP (fun x => x.isNone) =
      arr.countP (fun x => x.isNone) + arr.countP (isOutside lims) := by
  induction arr with
  | nil => simp [maskOutside]
  | cons x xs ih =>
    cases x with
    | none => simp [maskOutside, List.countP_cons, isOutside] at ih ⊢; omega
    | some v =>
      by_cases hv : isOutside lims (some v)
      · simp [maskOutside, List.countP_cons, hv] at ih ⊢; omega
      · simp [maskOutside, List.countP_cons, hv] at ih ⊢; omega

/-- C1 (counterexample): with more than half of the non-missing elements out
of range, `check_array_bounds` raises `UnitError` even under the `ignore`
policy, instead of returning the array unchanged as the claim states — the
majority-violation check sits before the action dispatch in the source. -/
theorem claim1_counterexample :
    check_array_bounds [some 5, some 5, some 5] (0, 1) .ignore "t" =
      .error (.unitError (halfMsg "t")) := by
  norm_num [check_array_bounds, isOutside, List.countP_cons]

/-- C1 (amended): for arrays with more than 2 elements, if more than half of
the non-missing elements lie outside the bounds then `check_array_bounds`
raises the majority-violation `UnitError` under *every* policy, `ignore`
included; under `ignore` with at most half of the non-missing elements out of
range the array is returned unchanged. -/
theorem claim1_amended_thm (arr : List (Option ℚ)) (lims : ℚ × ℚ)
    (name : String) (hlen : 2 < arr.length) :
    (((arr.countP fun x => x.isSome : ℕ) : ℚ) * (1 / 2) <
        ((arr.countP (isOutside lims) : ℕ) : ℚ) →
      ∀ action, check_array_bounds arr lims action name =
        .error (.unitError (halfMsg name))) ∧
    (((arr.countP (isOutside lims) : ℕ) : ℚ) ≤
        ((arr.countP fun x => x.isSome : ℕ) : ℚ) * (1 / 2) →
      check_array_bounds arr lims .ignore name = .ok arr) := by
  constructor
  · intro h action
    rw [one_div] at h
    simp [check_array_bounds, hlen.not_le, h]
  · intro h
    rw [one_div] at h
    simp [check_array_bounds, hlen.not_le, h.not_lt]

/-- C1 (witness): the amended theorem applied to concrete arrays — a
majority violation raises under `warn`, and `ignore` passes a minority
violation through unchanged. -/
theorem claim1_witness :
    check_array_bounds [some 5, some 5, some (1/2)] (0, 1) .warn "x" =
      .error (.unitError (halfMsg "x")) ∧
    check_array_bounds [some 5, some (1/2), some (1/4)] (0, 1) .ignore "x" =
      .ok [some 5, some (1/2), some (1/4)] :=
  ⟨(claim1_amended_thm _ _ _ (by norm_num)).1
      (by norm_num [List.countP_cons, isOutside]) .warn,
    (claim1_amended_thm _ _ _ (by norm_num)).2
      (by norm_num [List.countP_cons, isOutside])⟩

/-- C7: for arrays with more than 2 elements and at most half of the
non-missing elements out of range, the `quiet` policy returns the masked
array: element-wise, exactly the out-of-range elements are replaced by the
missing marker and every other element (in-range or already missing) is
unchanged, so the missing count grows by exactly the out-of-range count. -/
theorem claim7_thm (arr : List (Option ℚ)) (lims : ℚ × ℚ) (name : String)
    (hlen : 2 < arr.length)
    (hk : ((arr.countP (isOutside lims) : ℕ) : ℚ) ≤
      ((arr.countP fun x => x.isSome : ℕ) : ℚ) * (1 / 2)) :
    check_array_bounds arr lims .quiet name = .ok (maskOutside lims arr) ∧
    (∀ i : ℕ, (maskOutside lims arr)[i]? =
      (arr[i]?).map fun x => if isOutside lims x then none else x) ∧
    (maskOutside lims arr).countP (fun x => x.isNone) =
      arr.countP (fun x => x.isNone) + arr.countP (isOutside lims) := by
  refine ⟨?_, ?_, countP_maskOutside lims arr⟩
  · rw [one_div] at hk
    simp [check_array_bounds, hlen.not_le, hk.not_lt]
  · intro i
    simp [maskOutside]

/-- C7 (witness): the masking theorem applied to a concrete array with one
out-of-range element. -/
theorem claim7_witness :
    check_array_bounds [some 5, some (1/2), some (1/4)] (0, 1) .quiet "x" =
      .ok (maskOutside (0, 1) [some 5, some (1/2), some (1/4)]) ∧
    (∀ i : ℕ, (maskOutside (0, 1) [some 5, some (1/2), some (1/4)])[i]? =
      (([some 5, some (1/2), some (1/4)] :
        List (Option ℚ))[i]?).map fun x => if isOutside (0, 1) x then none else x) ∧
    (maskOutside (0, 1) [some 5, some (1/2), some (1/4)]).countP
        (fun x => x.isNone) =
      ([some 5, some (1/2), some (1/4)] : List (Option ℚ)).countP
          (fun x => x.isNone) +
        ([some 5, some (1/2), some (1/4)] : List (Option ℚ)).countP
          (isOutside (0, 1)) :=
  claim7_thm _ _ _ (by norm_num) (by norm_num [List.countP_cons, isOutside])

/-- C8: arrays of size at most 2 are returned by `check_array_bounds`
without any bound check, under every policy. -/
theorem claim8_thm (arr : List (Option ℚ)) (lims : ℚ × ℚ) (action : Action)
    (name : String) (h : arr.length ≤ 2) :
    check_array_bounds arr lims action name = .ok arr := by
  simp [check_array_bounds, h]

/-- C8 (witness): a size-2 array with every element out of range is returned
unchanged even under the `raise` policy. -/
theorem claim8_witness :
    check_array_bounds [some 5, some 7] (0, 1) .raise "x" =
      .ok [some 5, some 7] :=
  claim8_thm _ _ _ _ (by norm_num)

/-- C10: an all-NaN array has no out-of-range element (NaN compares false
against both bounds), so `warn` succeeds and preserves the NaN elements; but
under `raise` the action dispatch falls through every `elif` to the
invalid-action `else` and raises `Exception("action must have ...")` — the
code bug refuting the claim that validation succeeds under every policy. -/
theorem claim10_thm :
    check_array_bounds [none, none, none] (0, 1) .warn "t" =
      .ok [none, none, none] ∧
    check_array_bounds [none, none, none] (0, 1) .raise "t" =
      .error (.exception badActionMsg) := by
  constructor
  · norm_num [check_array_bounds, isOutside, maskOutside, List.countP_cons]
  · norm_num [check_array_bounds, isOutside, List.countP_cons]
    rfl

/-- Schmidt number reference value at 20 degrees C (Wanninkhof 2014). -/
theorem schmidt_number_at_20 : schmidt_number 20 = 668.344 := by
  norm_num [schmidt_number, checkScalar]

/-- C2: `flux_bulk` is the product of the gas transfer velocity converted
from cm/hr to m/day (`* 24/100`), the Weiss (1974) solubility at bulk
salinity, Kelvin temperature and atm pressure, the difference of the two
fugacities obtained by `pCO2_to_fCO2` from the atm-converted pCO2 inputs at
the bulk temperature and pressure, and the molar mass constant
`12.0108 * 1000`. -/
theorem claim2_thm (t s psea pair p w : ℝ) (kw_func : ℝ → ℝ → ℝ) :
    flux_bulk t s psea pair p w kw_func =
      (kw_func w t * (24 / 100)) *
        solubility_weiss1974 s (t + 273.15) (p / 1013.25) *
        (pCO2_to_fCO2 (psea * 1e-6) (t + 273.15) (some (p / 1013.25)) none -
          pCO2_to_fCO2 (pair * 1e-6) (t + 273.15) (some (p / 1013.25)) none) *
        (12.0108 * 1000) := by
  simp only [flux_bulk, checkScalar]

/-- C4 (counterexample): at the regime boundary `U = 3.6` the source takes
the smooth-surface branch (`i1 : U <= 3.6`), whose value differs from the
transitional-regime formula the claim's tie-to-higher rule would demand. -/
theorem claim4_counterexample :
    k_Li86 3.6 20 ≠
      ((3.6 - 3.4) * 2.8) * (600 / schmidt_number 20) ^ ((0.5 : ℝ)) := by
  intro heq
  have hk : k_Li86 3.6 20 =
      (0.17 * 3.6) * (schmidt_number 20 / 600) ^ (-(2 : ℝ) / 3) := by
    simp [k_Li86, checkScalar]
  set y : ℝ := schmidt_number 20 / 600 with hy_def
  have hy : 0 < y := by rw [hy_def, schmidt_number_at_20]; norm_num
  have hinv : (600 / schmidt_number 20 : ℝ) = y⁻¹ := by
    rw [hy_def, schmidt_number_at_20]; norm_num
  rw [hk, hinv, Real.inv_rpow hy.le] at heq
  have hexp : (-(2 : ℝ) / 3) = -(2 / 3 : ℝ) := by norm_num
  rw [hexp, Real.rpow_neg hy.le] at heq
  have hp12 : (0 : ℝ) < y ^ ((0.5 : ℝ)) := Real.rpow_pos_of_pos hy _
  have hcross : (0.17 * 3.6) * y ^ ((0.5 : ℝ)) =
      ((3.6 - 3.4) * 2.8) * y ^ ((2 : ℝ) / 3) := by
    field_simp at heq
    linarith [heq]
  have hsplit : y ^ ((2 : ℝ) / 3) = y ^ ((0.5 : ℝ)) * y ^ ((1 : ℝ) / 6) := by
    rw [← Real.rpow_add hy]
    norm_num
  rw [hsplit] at hcross
  have hfac : y ^ ((0.5 : ℝ)) *
      ((0.17 * 3.6) - ((3.6 - 3.4) * 2.8) * y ^ ((1 : ℝ) / 6)) = 0 := by
    linear_combination hcross
  have h16 : y ^ ((1 : ℝ) / 6) = 153 / 140 := by
    rcases mul_eq_zero.mp hfac with h | h
    · exact absurd h hp12.ne'
    · linarith
  have hy6 : (y ^ ((1 : ℝ) / 6)) ^ (6 : ℕ) = y := by
    rw [← Real.rpow_natCast (y ^ ((1 : ℝ) / 6)) 6, ← Real.rpow_mul hy.le]
    norm_num
  have h6 : y = ((153 : ℝ) / 140) ^ (6 : ℕ) := by
    rw [← hy6, h16]
  rw [hy_def, schmidt_number_at_20] at h6
  norm_num at h6

/-- C4 (amended): `k_Li86` evaluates exactly one of the three regime
formulas, with regime boundaries at `U = 3.6` and `U = 13.0` and no gap or
overlap; the tie at `U = 3.6` goes to the smooth (lower-wind) regime and the
tie at `U = 13.0` to the rough (higher-wind) regime. -/
theorem claim4_amended_thm (U T : ℝ) :
    (U ≤ 3.6 →
      k_Li86 U T = (0.17 * U) * (schmidt_number T / 600) ^ (-(2 : ℝ) / 3)) ∧
    (3.6 < U → U < 13.0 →
      k_Li86 U T = ((U - 3.4) * 2.8) * (600 / schmidt_number T) ^ ((0.5 : ℝ))) ∧
    (13.0 ≤ U →
      k_Li86 U T = ((U - 8.4) * 5.9) * (600 / schmidt_number T) ^ ((0.5 : ℝ))) := by
  refine ⟨fun h1 => ?_, fun h1 h2 => ?_, fun h1 => ?_⟩
  · simp [k_Li86, checkScalar, h1]
  · simp [k_Li86, checkScalar, h1.not_le, h2]
  · have h2 : ¬ (U ≤ 3.6) := by norm_num; linarith
    have h3 : ¬ (U < 13.0) := not_lt.mpr h1
    simp [k_Li86, checkScalar, h2, h3]

/-- C4 (witness): the amended regime description evaluated at `U = 2`. -/
theorem claim4_witness :
    k_Li86 2 20 = (0.17 * 2) * (schmidt_number 20 / 600) ^ (-(2 : ℝ) / 3) :=
  (claim4_amended_thm 2 20).1 (by norm_num)

/-- The Schmidt number polynomial is positive on the validated temperature
range (its minimum on the range is about 258 at 43 degrees C). -/
theorem schmidt_number_pos (t : ℝ) (h1 : -3.15 ≤ t) (h2 : t ≤ 45.35) :
    0 < schmidt_number t := by
  simp only [schmidt_number, checkScalar]
  nlinarith [sq_nonneg (t ^ 2 - 61.09 * t + 1267.6), sq_nonneg (t - 43),
    sq_nonneg t, mul_nonneg (sub_nonneg.mpr h1) (sub_nonneg.mpr h2)]

/-- The Schmidt number polynomial is positive at every real temperature
(its single global minimum is about 257 at 43.3 degrees C), so the
`(Sc/660)**-0.5` cell of `kw_scaled` is finite and positive even at
temperatures outside the validated range, which reach the polynomial when a
minority of grid cells fails the bound check. -/
theorem schmidt_number_pos_all (t : ℝ) : 0 < schmidt_number t := by
  simp only [schmidt_number, checkScalar]
  nlinarith [sq_nonneg (t ^ 2 - (92307 / 1511) * t + 1100),
    sq_nonneg (t - 68.4)]

/-- Numeric bound `log 2.7 > 0.99`, i.e. `exp 0.99 < 2.7`. -/
theorem log_twentyseven_tenths : (0.99 : ℝ) < log 2.7 := by
  rw [show (0.99 : ℝ) = 1 + (-0.01) by norm_num]
  have h1 : exp (1 + (-0.01)) < 2.7 := by
    rw [exp_add]
    have he : exp 1 < 2.7182818286 := exp_one_lt_d9
    have hn : exp (-0.01) < 1 / 1.01 := by
      rw [exp_neg]
      have hx : (1.01 : ℝ) < exp 0.01 := by
        have := add_one_lt_exp (x := (0.01 : ℝ)) (by norm_num)
        linarith
      rw [lt_div_iff₀ (by norm_num), inv_mul_eq_div, div_lt_one (exp_pos _)]
      linarith
    calc exp 1 * exp (-0.01) < 2.7182818286 * (1 / 1.01) := by
          apply mul_lt_mul' he.le hn (exp_pos _).le (by norm_num)
      _ < 2.7 := by norm_num
  exact (Real.lt_log_iff_exp_lt (by norm_num : (0 : ℝ) < 2.7)).mpr h1

/-- The Weiss & Price (1980) seawater vapour pressure stays below 0.5 atm on
the validated temperature and salinity ranges (it is below 0.1 atm there, so
the pressure correction `P - pH2O` of the solubility never crosses zero). -/
theorem weiss1980_lt_half (s T : ℝ) (hs : 0 ≤ s) (hT1 : 270 ≤ T)
    (hT2 : T ≤ 318.5) : weiss1980 s T < 0.5 := by
  simp only [weiss1980, checkScalar]
  have hTpos : (0 : ℝ) < T := by linarith
  have hfrac : (6745.09 : ℝ) / 318.5 ≤ 67.4509 * (100 / T) := by
    have hrw : 67.4509 * (100 / T) = 6745.09 / T := by ring
    rw [hrw, div_le_div_iff₀ (by norm_num) hTpos]
    nlinarith
  have hlog : (0.99 : ℝ) < log (T / 100) := by
    have h27 : (2.7 : ℝ) ≤ T / 100 := by linarith
    calc (0.99 : ℝ) < log 2.7 := log_twentyseven_tenths
      _ ≤ log (T / 100) := Real.log_le_log (by norm_num) h27
  have harg : 24.4543 - 67.4509 * (100 / T) - 4.8489 * log (T / 100) -
      0.000544 * s ≤ -1 := by
    have h1 : 67.4509 * (100 / T) ≥ 21.177 := by
      calc 67.4509 * (100 / T) ≥ 6745.09 / 318.5 := hfrac
        _ ≥ 21.177 := by norm_num
    nlinarith
  calc exp (24.4543 - 67.4509 * (100 / T) - 4.8489 * log (T / 100) -
        0.000544 * s)
      ≤ exp (-1) := exp_le_exp.mpr harg
    _ < 0.5 := by
      rw [exp_neg, inv_lt_iff_one_lt_mul₀ (exp_pos _)]
      have h2 : (2 : ℝ) < exp 1 := by
        have := exp_one_gt_d9
        linarith
      linarith

/-- The Weiss (1974) solubility is positive on the validated domain: the
exponential is positive and the vapour-pressure correction `P - pH2O` stays
positive because `P > 0.5 > pH2O`. -/
theorem solubility_weiss1974_pos (s T P : ℝ) (hs : 0 ≤ s) (hT1 : 270 ≤ T)
    (hT2 : T ≤ 318.5) (hP : 0.5 < P) : 0 < solubility_weiss1974 s T P := by
  have hvp := weiss1980_lt_half s T hs hT1 hT2
  simp only [solubility_weiss1974, checkScalar]
  exact div_pos (exp_pos _) (by linarith)

/-- Strict monotonicity of the fugacity conversion in the pCO2 argument, for
the argument ranges produced by `flux_bulk` (pCO2 already in atm, temperature
already in Kelvin): the virial exponent coefficient `d` is negative at the
doubly-shifted temperature, so a larger pCO2 gives a larger `x2`-corrected
exponent and a strictly larger fugacity. -/
theorem pCO2_to_fCO2_strict_mono (TK Patm : ℝ) (hT1 : 270 < TK)
    (hP1 : 0.5 < Patm) {p1 p2 : ℝ} (h0 : 0 < p1) (h12 : p1 < p2)
    (hub : p2 ≤ 1e-3) :
    pCO2_to_fCO2 p1 TK (some Patm) none < pCO2_to_fCO2 p2 TK (some Patm) none := by
  simp only [pCO2_to_fCO2, virial_coeff, temperature_correction, checkScalar,
    Option.getD, sub_self, mul_zero, sub_zero, Real.exp_zero, mul_one]
  have hT2pos : (0 : ℝ) < TK + 273.15 := by linarith
  have hPeq : (0 : ℝ) < Patm / 1013.25 :=
    div_pos (by linarith) (by norm_num)
  have hd : 57.7 - 0.118 * (TK + 273.15) < 0 := by linarith
  have hc1 : p1 * 1e-6 / (Patm / 1013.25) < p2 * 1e-6 / (Patm / 1013.25) := by
    gcongr
  have hc2le : p2 * 1e-6 / (Patm / 1013.25) ≤ 1 := by
    rw [div_le_one hPeq]
    have hlow : (0.5 : ℝ) / 1013.25 ≤ Patm / 1013.25 := by
      gcongr
    have hsm : p2 * 1e-6 ≤ 1e-9 := by linarith
    have h9 : (1e-9 : ℝ) ≤ 0.5 / 1013.25 := by norm_num
    linarith
  have hc1pos : 0 ≤ p1 * 1e-6 / (Patm / 1013.25) := by positivity
  have hsq : (1 - p2 * 1e-6 / (Patm / 1013.25)) ^ 2 <
      (1 - p1 * 1e-6 / (Patm / 1013.25)) ^ 2 := by
    apply pow_lt_pow_left₀ (by linarith) (by linarith) two_ne_zero
  have hinner : (-1636.75 + 12.0408 * (TK + 273.15) -
        327957e-7 * (TK + 273.15) ^ 2 + 316528e-10 * (TK + 273.15) ^ 3 +
        2 * (1 - p1 * 1e-6 / (Patm / 1013.25)) ^ 2 *
          (57.7 - 0.118 * (TK + 273.15))) <
      (-1636.75 + 12.0408 * (TK + 273.15) -
        327957e-7 * (TK + 273.15) ^ 2 + 316528e-10 * (TK + 273.15) ^ 3 +
        2 * (1 - p2 * 1e-6 / (Patm / 1013.25)) ^ 2 *
          (57.7 - 0.118 * (TK + 273.15))) := by
    nlinarith [hsq, hd]
  have hexps : rexp (Patm / 1013.25 *
        (-1636.75 + 12.0408 * (TK + 273.15) -
          327957e-7 * (TK + 273.15) ^ 2 + 316528e-10 * (TK + 273.15) ^ 3 +
          2 * (1 - p1 * 1e-6 / (Patm / 1013.25)) ^ 2 *
            (57.7 - 0.118 * (TK + 273.15))) /
        (82.057 * (TK + 273.15))) <
      rexp (Patm / 1013.25 *
        (-1636.75 + 12.0408 * (TK + 273.15) -
          327957e-7 * (TK + 273.15) ^ 2 + 316528e-10 * (TK + 273.15) ^ 3 +
          2 * (1 - p2 * 1e-6 / (Patm / 1013.25)) ^ 2 *
            (57.7 - 0.118 * (TK + 273.15))) /
        (82.057 * (TK + 273.15))) := by
    apply Real.exp_lt_exp.mpr
    exact div_lt_div_of_pos_right ((mul_lt_mul_left hPeq).mpr hinner)
      (by positivity)
  have hmain : p1 * 1e-6 *
      rexp (Patm / 1013.25 *
        (-1636.75 + 12.0408 * (TK + 273.15) -
          327957e-7 * (TK + 273.15) ^ 2 + 316528e-10 * (TK + 273.15) ^ 3 +
          2 * (1 - p1 * 1e-6 / (Patm / 1013.25)) ^ 2 *
            (57.7 - 0.118 * (TK + 273.15))) /
        (82.057 * (TK + 273.15))) <
      p2 * 1e-6 *
      rexp (Patm / 1013.25 *
        (-1636.75 + 12.0408 * (TK + 273.15) -
          327957e-7 * (TK + 273.15) ^ 2 + 316528e-10 * (TK + 273.15) ^ 3 +
          2 * (1 - p2 * 1e-6 / (Patm / 1013.25)) ^ 2 *
            (57.7 - 0.118 * (TK + 273.15))) /
        (82.057 * (TK + 273.15))) := by
    apply mul_lt_mul'' (by linarith) hexps (by positivity) (by positivity)
  have h1e6 : (0 : ℝ) < 1e6 := by norm_num
  exact (mul_lt_mul_right h1e6).mpr hmain

/-- C6 (counterexample): with wind speed 0 — which the claim's "non-negative
wind speed" admits — the Nightingale kw vanishes and `flux_bulk` returns
exactly 0, which is not positive although sea pCO2 (400) exceeds air pCO2
(300); so sign equality fails at zero wind. -/
theorem claim6_counterexample :
    flux_bulk 25 35 400 300 1013.25 0 k_Ni00 = 0 ∧ (300 : ℝ) < 400 := by
  constructor
  · simp only [flux_bulk, k_Ni00, checkScalar]
    norm_num
  · norm_num

/-- C6 (amended): for in-domain inputs with strictly positive wind speed,
the sign of the flux returned by `flux_bulk` (with the default Nightingale
2000 kw) equals the sign of `pCO2_sea - pCO2_air`: the kw, solubility and
molar-mass factors are positive, and the fugacity conversion is strictly
increasing in pCO2, so the flux is positive iff sea pCO2 exceeds air pCO2
and negative iff air exceeds sea. -/
theorem claim6_amended_thm (t s psea pair p w : ℝ)
    (hT1 : 270 < t + 273.15) (hT2 : t + 273.15 < 318.5)
    (hs0 : 0 ≤ s) (hp1 : 0.5 < p / 1013.25)
    (hsea0 : 0 < psea) (hsea1 : psea ≤ 1000)
    (hair0 : 0 < pair) (hair1 : pair ≤ 1000)
    (hw : 0 < w) :
    (0 < flux_bulk t s psea pair p w k_Ni00 ↔ pair < psea) ∧
    (flux_bulk t s psea pair p w k_Ni00 < 0 ↔ psea < pair) := by
  have hScp : 0 < schmidt_number t :=
    schmidt_number_pos t (by linarith) (by linarith)
  have hkw : 0 < k_Ni00 w t * (24 / 100) := by
    simp only [k_Ni00, checkScalar]
    have h1 : 0 < 0.333 * w + 0.222 * w ^ 2 := by nlinarith
    have h2 : (0 : ℝ) < (600 / schmidt_number t) ^ ((0.5 : ℝ)) :=
      Real.rpow_pos_of_pos (div_pos (by norm_num) hScp) _
    positivity
  have hK0 : 0 < solubility_weiss1974 s (t + 273.15) (p / 1013.25) :=
    solubility_weiss1974_pos s (t + 273.15) (p / 1013.25) hs0 (by linarith)
      (by linarith) hp1
  have hmono : ∀ {a b : ℝ}, 0 < a → a < b → b ≤ 1000 →
      pCO2_to_fCO2 (a * 1e-6) (t + 273.15) (some (p / 1013.25)) none <
        pCO2_to_fCO2 (b * 1e-6) (t + 273.15) (some (p / 1013.25)) none := by
    intro a b ha hab hb
    exact pCO2_to_fCO2_strict_mono (t + 273.15) (p / 1013.25) hT1 hp1
      (by positivity) (by linarith) (by linarith)
  have hiff : pCO2_to_fCO2 (pair * 1e-6) (t + 273.15) (some (p / 1013.25)) none <
      pCO2_to_fCO2 (psea * 1e-6) (t + 273.15) (some (p / 1013.25)) none ↔
      pair < psea := by
    constructor
    · intro h
      by_contra hle
      push_neg at hle
      rcases eq_or_lt_of_le hle with heq | hlt
      · rw [heq] at h
        exact lt_irrefl _ h
      · exact absurd (hmono hsea0 hlt hair1) (not_lt.mpr h.le)
    · intro h
      exact hmono hair0 h hsea1
  have hflux : flux_bulk t s psea pair p w k_Ni00 =
      (k_Ni00 w t * (24 / 100) *
        solubility_weiss1974 s (t + 273.15) (p / 1013.25) * (12.0108 * 1000)) *
      (pCO2_to_fCO2 (psea * 1e-6) (t + 273.15) (some (p / 1013.25)) none -
        pCO2_to_fCO2 (pair * 1e-6) (t + 273.15) (some (p / 1013.25)) none) := by
    simp only [flux_bulk, checkScalar]
    ring
  have hCpos : 0 < k_Ni00 w t * (24 / 100) *
      solubility_weiss1974 s (t + 273.15) (p / 1013.25) * (12.0108 * 1000) := by
    positivity
  constructor
  · rw [hflux, mul_pos_iff_of_pos_left hCpos, sub_pos]
    exact hiff
  · rw [hflux]
    constructor
    · intro h
      have hneg : pCO2_to_fCO2 (psea * 1e-6) (t + 273.15) (some (p / 1013.25)) none -
          pCO2_to_fCO2 (pair * 1e-6) (t + 273.15) (some (p / 1013.25)) none < 0 := by
        by_contra hge
        push_neg at hge
        nlinarith
      have := sub_neg.mp hneg
      by_contra hle
      push_neg at hle
      rcases eq_or_lt_of_le hle with heq | hlt
      · rw [heq] at this
        exact lt_irrefl _ this
      · exact absurd (hmono hair0 hlt hsea1) (not_lt.mpr this.le)
    · intro h
      have hneg := hmono hsea0 h hair1
      have hsub : pCO2_to_fCO2 (psea * 1e-6) (t + 273.15) (some (p / 1013.25)) none -
          pCO2_to_fCO2 (pair * 1e-6) (t + 273.15) (some (p / 1013.25)) none < 0 :=
        sub_neg.mpr hneg
      exact mul_neg_of_pos_of_neg hCpos hsub

/-- C6 (witness): the amended sign property at a concrete outgassing
scenario (sea pCO2 400 > air pCO2 300, wind 10 m/s). -/
theorem claim6_witness :
    (0 < flux_bulk 25 35 400 300 1013.25 10 k_Ni00 ↔ (300 : ℝ) < 400) ∧
    (flux_bulk 25 35 400 300 1013.25 10 k_Ni00 < 0 ↔ (400 : ℝ) < 300) :=
  claim6_amended_thm 25 35 400 300 1013.25 10 (by norm_num) (by norm_num)
    (by norm_num) (by norm_num) (by norm_num) (by norm_num) (by norm_num)
    (by norm_num) (by norm_num)

/-- Round-half-even differs from the true value by at most one half. -/
theorem roundHalfEven_abs (y : ℝ) : |(roundHalfEven y : ℝ) - y| ≤ 1 / 2 := by
  unfold roundHalfEven
  split_ifs with h1 h2
  · have hf : y - ⌊y⌋ = 1 / 2 := h1
    rw [abs_le]
    constructor <;> push_cast <;> linarith
  · have hf : y - ⌊y⌋ = 1 / 2 := h1
    rw [abs_le]
    constructor <;> push_cast <;> linarith
  · rw [abs_sub_comm]
    exact abs_sub_round y

/-- Rounding to 4 decimals (`np.around(x, 4)`) moves `x` by at most 5e-5. -/
theorem around4_abs (x : ℝ) : |around4 x - x| ≤ 5e-5 := by
  have h := roundHalfEven_abs (x * 10 ^ 4)
  have heq : around4 x - x =
      ((roundHalfEven (x * 10 ^ 4) : ℝ) - x * 10 ^ 4) / 10 ^ 4 := by
    unfold around4
    ring
  rw [heq, abs_div, abs_of_pos (by norm_num : (0 : ℝ) < 10 ^ 4)]
  linarith

/-- The Schmidt cell at 20 degrees C. -/
theorem sc660_at_20 : sc660cell (some 20) =
    some ((668.344 / 660 : ℝ) ^ (-(0.5) : ℝ)) := by
  rw [sc660cell]
  rw [show ((20 : ℚ) : ℝ) = (20 : ℝ) by norm_num, schmidt_number_at_20]

/-- Square of the Schmidt-number normalisation factor at 20 degrees C. -/
theorem s20_sq : ((668.344 / 660 : ℝ) ^ (-(0.5) : ℝ)) ^ (2 : ℕ) =
    660 / 668.344 := by
  have hbase : (0 : ℝ) < 668.344 / 660 := by norm_num
  rw [← Real.rpow_natCast ((668.344 / 660 : ℝ) ^ (-(0.5) : ℝ)) 2,
    ← Real.rpow_mul hbase.le]
  norm_num

/-- Positivity of the Schmidt-number normalisation factor at 20 degrees C. -/
theorem s20_pos : (0 : ℝ) < (668.344 / 660 : ℝ) ^ (-(0.5) : ℝ) :=
  Real.rpow_pos_of_pos (by norm_num) _

/-- Rational lower bound of the normalisation factor at 20 degrees C. -/
theorem s20_lb : (12800 / 12881 : ℝ) < (668.344 / 660 : ℝ) ^ (-(0.5) : ℝ) := by
  by_contra hle
  push_neg at hle
  have hsq : ((668.344 / 660 : ℝ) ^ (-(0.5) : ℝ)) ^ (2 : ℕ) ≤
      (12800 / 12881 : ℝ) ^ (2 : ℕ) := by
    have := s20_pos
    nlinarith
  rw [s20_sq] at hsq
  norm_num at hsq

/-- Rational upper bound of the normalisation factor at 20 degrees C. -/
theorem s20_ub : (668.344 / 660 : ℝ) ^ (-(0.5) : ℝ) < (64000 / 64403 : ℝ) := by
  by_contra hle
  push_neg at hle
  have hsq : (64000 / 64403 : ℝ) ^ (2 : ℕ) ≤
      ((668.344 / 660 : ℝ) ^ (-(0.5) : ℝ)) ^ (2 : ℕ) := by
    nlinarith [s20_pos]
  rw [s20_sq] at hsq
  norm_num at hsq

/-- The alpha of the `kw_scaled` counterexample input rounds to exactly
3.2202: the pre-rounding value `16 / (5 * Sc660(20))` lies strictly between
3.22015 and 3.22025. -/
theorem around4_key :
    around4 (16 / (5 * ((668.344 / 660 : ℝ) ^ (-(0.5) : ℝ)))) = 3.2202 := by
  set s : ℝ := (668.344 / 660 : ℝ) ^ (-(0.5) : ℝ) with hs_def
  have hsp : 0 < s := s20_pos
  have hy1 : (32201.5 : ℝ) < 32000 / s := by
    have h1 : (32000 : ℝ) / (64000 / 64403) < 32000 / s :=
      div_lt_div_of_pos_left (by norm_num) hsp s20_ub
    calc (32201.5 : ℝ) = 32000 / (64000 / 64403) := by norm_num
      _ < 32000 / s := h1
  have hy2 : (32000 / s : ℝ) < 32202.5 := by
    have h1 : (32000 : ℝ) / s < 32000 / (12800 / 12881) :=
      div_lt_div_of_pos_left (by norm_num) (by norm_num) s20_lb
    calc (32000 / s : ℝ) < 32000 / (12800 / 12881) := h1
      _ = 32202.5 := by norm_num
  unfold around4 roundHalfEven
  have hxy : (16 / (5 * s)) * 10 ^ 4 = 32000 / s := by
    field_simp
    ring
  rw [hxy]
  have hne : Int.fract (32000 / s) ≠ 1 / 2 := by
    intro hf
    have hfr : (32000 / s : ℝ) - ⌊(32000 / s : ℝ)⌋ = 1 / 2 := hf
    have hfl1 : (32201 : ℝ) < (⌊(32000 / s : ℝ)⌋ : ℝ) := by linarith
    have hfl2 : ((⌊(32000 / s : ℝ)⌋ : ℝ)) < 32202 := by linarith
    have h1 : (32201 : ℤ) < ⌊(32000 / s : ℝ)⌋ := by exact_mod_cast hfl1
    have h2 : ⌊(32000 / s : ℝ)⌋ < (32202 : ℤ) := by exact_mod_cast hfl2
    omega
  rw [if_neg hne]
  have hr : round (32000 / s : ℝ) = 32202 := by
    rw [round_eq]
    apply Int.floor_eq_iff.mpr
    constructor
    · push_cast
      linarith
    · push_cast
      linarith
  rw [hr]
  norm_num

/-- Full evaluation of `kw_scaled` on a uniform 3-cell grid: wind mean 2,
wind stdev 1, 20 degrees C, no ice, target 16 cm/hr.  The Kelvin grid is
uniformly 293.15 K, inside the limits, so the `check.temp_K` call passes;
the alpha is computed from `U2 = 2^2 + 1^2 = 5` but the returned cells use
`Uavg2 = 2^2 = 4`. -/
theorem kw_eval :
    kw_scaled [some 2, some 2, some 2] [some 1, some 1, some 1]
      [some 20, some 20, some 20] [some 0, some 0, some 0] 16 =
    Except.ok
      ([some ((3.2202 : ℝ) * 4 * ((668.344 / 660 : ℝ) ^ (-(0.5) : ℝ))),
        some ((3.2202 : ℝ) * 4 * ((668.344 / 660 : ℝ) ^ (-(0.5) : ℝ))),
        some ((3.2202 : ℝ) * 4 * ((668.344 / 660 : ℝ) ^ (-(0.5) : ℝ)))],
        3.2202) := by
  set s : ℝ := (668.344 / 660 : ℝ) ^ (-(0.5) : ℝ) with hs_def
  have hck : temp_K (List.map (Option.map (fun t => t + 273.15))
      [some (20 : ℚ), some 20, some 20]) =
      Except.ok [some 293.15, some 293.15, some 293.15] := by
    norm_num [temp_K, check_array_bounds, isOutside, maskOutside,
      List.countP_cons]
  have hzu : List.zipWith u2cell
      [some (2 : ℝ), some 2, some 2] [some 1, some 1, some 1] =
      [some 5, some 5, some 5] := by
    norm_num [u2cell]
  have hmap : List.map sc660cell [some (20 : ℚ), some 20, some 20] =
      [some s, some s, some s] := by
    simp [sc660_at_20]
  have hua : List.map uavg2cell [some (2 : ℝ), some 2, some 2] =
      [some 4, some 4, some 4] := by
    norm_num [uavg2cell]
  have halpha : calculate_scaled_alpha [some 5, some 5, some 5]
      [some s, some s, some s] [some 0, some 0, some 0] 16 = 3.2202 := by
    have hsum : ((kwNumer [some 5, some 5, some 5] [some s, some s, some s]
        [some 0, some 0, some 0]).sum /
        (kwWeights [some 5, some 5, some 5] [some s, some s, some s]
        [some 0, some 0, some 0]).sum) = 5 * s := by
      simp [kwNumer, kwWeights, kwNumerTerm, kwWeight]
      ring
    rw [calculate_scaled_alpha, hsum, around4_key]
  rw [kw_scaled, hck]
  simp only [hzu, hmap, hua, halpha]
  norm_num

/-- C3 (counterexample): on the uniform 3-cell grid above — all Kelvin
temperatures in range, so the `check.temp_K` majority check passes — the
returned cell value `3.2202 * 4 * Sc660` is not
`alpha * ⟨U²⟩ * (Sc/660)^(-0.5) = 3.2202 * 5 * Sc660` (the source uses the
squared mean wind, not the second moment), and the ice-weighted global mean
of the claimed formula `alpha * ⟨U²⟩ * Sc660` — which on the uniform grid is
just that common value — is not exactly the target 16, because alpha is
rounded to 4 decimals. -/
theorem claim3_counterexample :
    kw_scaled [some 2, some 2, some 2] [some 1, some 1, some 1]
        [some 20, some 20, some 20] [some 0, some 0, some 0] 16 =
      Except.ok
        ([some ((3.2202 : ℝ) * 4 * ((668.344 / 660 : ℝ) ^ (-(0.5) : ℝ))),
          some ((3.2202 : ℝ) * 4 * ((668.344 / 660 : ℝ) ^ (-(0.5) : ℝ))),
          some ((3.2202 : ℝ) * 4 * ((668.344 / 660 : ℝ) ^ (-(0.5) : ℝ)))],
          3.2202) ∧
    (3.2202 : ℝ) * 4 * ((668.344 / 660 : ℝ) ^ (-(0.5) : ℝ)) ≠
      (3.2202 : ℝ) * ((2 : ℝ) ^ 2 + 1 ^ 2) *
        ((schmidt_number 20 / 660) ^ (-(0.5) : ℝ)) ∧
    (3.2202 : ℝ) * (((2 : ℝ) ^ 2 + 1 ^ 2) *
      ((schmidt_number 20 / 660) ^ (-(0.5) : ℝ))) ≠ 16 := by
  rw [schmidt_number_at_20]
  set s : ℝ := (668.344 / 660 : ℝ) ^ (-(0.5) : ℝ) with hs_def
  refine ⟨kw_eval, ?_, ?_⟩
  · intro h
    nlinarith [s20_pos, h]
  · intro h
    have hs : s = 16 / 16.101 := by nlinarith [h]
    have h2 := s20_sq
    rw [← hs_def, hs] at h2
    norm_num at h2

/-- C3 (amended): `kw_scaled` first runs the temperature bound check that
`schmidt_number` performs on the Kelvin grid `temp_C + 273.15`
(`check.temp_K`: limits `(270, 318.5)`, action `warn`) and propagates its
majority-violation `UnitError`; when that check passes it computes a single
scalar `alpha = around(target / M, 4)` where `M` is the ice-fraction-weighted
global mean of `⟨U²⟩·(Sc/660)^(-0.5)` (with `⟨U²⟩ = mean² + stdev²`, weight
`1 - ice_fraction`, weight 0 wherever the wind or Schmidt term is NaN), so
the weighted global mean `alpha·M` of the claim's formula equals the target
only up to the 4-decimal rounding of alpha (within `5e-5·M`); and the
per-cell value actually returned is `alpha·mean²·(Sc/660)^(-0.5)`, using the
squared mean wind instead of `⟨U²⟩`. -/
theorem claim3_amended_thm (wind stdev : List (Option ℝ))
    (temp : List (Option ℚ)) (ice : List (Option ℝ)) (scaling : ℝ) :
    (∀ e, temp_K (temp.map (Option.map (fun t => t + 273.15))) =
        Except.error e →
      kw_scaled wind stdev temp ice scaling = Except.error e) ∧
    (∀ l, temp_K (temp.map (Option.map (fun t => t + 273.15))) =
        Except.ok l →
      ∃ cells,
        kw_scaled wind stdev temp ice scaling =
          Except.ok (cells, calculate_scaled_alpha
            (List.zipWith u2cell wind stdev) (temp.map sc660cell) ice
            scaling) ∧
        calculate_scaled_alpha (List.zipWith u2cell wind stdev)
            (temp.map sc660cell) ice scaling =
          around4 (scaling / ((kwNumer (List.zipWith u2cell wind stdev)
              (temp.map sc660cell) ice).sum /
            (kwWeights (List.zipWith u2cell wind stdev)
              (temp.map sc660cell) ice).sum)) ∧
        (0 < (kwNumer (List.zipWith u2cell wind stdev)
              (temp.map sc660cell) ice).sum /
            (kwWeights (List.zipWith u2cell wind stdev)
              (temp.map sc660cell) ice).sum →
          |calculate_scaled_alpha (List.zipWith u2cell wind stdev)
              (temp.map sc660cell) ice scaling *
            ((kwNumer (List.zipWith u2cell wind stdev)
                (temp.map sc660cell) ice).sum /
              (kwWeights (List.zipWith u2cell wind stdev)
                (temp.map sc660cell) ice).sum) - scaling| ≤
          5e-5 * ((kwNumer (List.zipWith u2cell wind stdev)
              (temp.map sc660cell) ice).sum /
            (kwWeights (List.zipWith u2cell wind stdev)
              (temp.map sc660cell) ice).sum)) ∧
        (∀ i : ℕ, ∀ a s' : ℝ, wind[i]? = some (some a) →
          (temp.map sc660cell)[i]? = some (some s') →
          cells[i]? = some (some (calculate_scaled_alpha
            (List.zipWith u2cell wind stdev) (temp.map sc660cell) ice
            scaling * a ^ 2 * s')))) := by
  constructor
  · intro e he
    simp only [kw_scaled, he]
  · intro l hl
    have hk : kw_scaled wind stdev temp ice scaling =
        Except.ok (List.zipWith (fun x y => match x, y with
            | some u, some s' => some (calculate_scaled_alpha
                (List.zipWith u2cell wind stdev) (temp.map sc660cell) ice
                scaling * u * s')
            | _, _ => none) (wind.map uavg2cell) (temp.map sc660cell),
          calculate_scaled_alpha (List.zipWith u2cell wind stdev)
            (temp.map sc660cell) ice scaling) := by
      simp only [kw_scaled, hl]
    refine ⟨_, hk, rfl, ?_, ?_⟩
    · intro hM
      set M : ℝ := (kwNumer (List.zipWith u2cell wind stdev)
          (temp.map sc660cell) ice).sum /
        (kwWeights (List.zipWith u2cell wind stdev)
          (temp.map sc660cell) ice).sum with hM_def
      have hA : calculate_scaled_alpha (List.zipWith u2cell wind stdev)
          (temp.map sc660cell) ice scaling = around4 (scaling / M) := rfl
      rw [hA]
      have h := around4_abs (scaling / M)
      have hcancel : (scaling / M) * M = scaling :=
        div_mul_cancel₀ scaling hM.ne'
      have heq : around4 (scaling / M) * M - scaling =
          (around4 (scaling / M) - scaling / M) * M := by
        rw [sub_mul, hcancel]
      rw [heq, abs_mul, abs_of_pos hM]
      exact mul_le_mul_of_nonneg_right h hM.le
    · intro i a s' hw hs'
      rw [List.getElem?_zipWith']
      rw [List.getElem?_map, hw, hs']
      simp only [Option.map_some', Option.some_bind, uavg2cell]

/-- C3 (witness): the amended statement on a single-cell grid (wind mean 2,
stdev 0, 20 degrees C, no ice, target 16): the Kelvin grid `[293.15]` passes
the bound check through the size early return, `M = 4 * Sc660(20) > 0`, the
returned cell is `alpha * 2^2 * Sc660(20)` and `alpha * M` lands within
`5e-5 * M` of the target. -/
theorem claim3_witness :
    (∃ cells, kw_scaled [some 2] [some 0] [some 20] [some 0] 16 =
        Except.ok (cells, calculate_scaled_alpha
          (List.zipWith u2cell [some 2] [some 0])
          (List.map sc660cell [some 20]) [some 0] 16) ∧
      cells[0]? = some (some (calculate_scaled_alpha
        (List.zipWith u2cell [some 2] [some 0])
        (List.map sc660cell [some 20]) [some 0] 16 * 2 ^ 2 *
          ((668.344 / 660 : ℝ) ^ (-(0.5) : ℝ))))) ∧
    |calculate_scaled_alpha (List.zipWith u2cell [some 2] [some 0])
        (List.map sc660cell [some 20]) [some 0] 16 *
        ((kwNumer (List.zipWith u2cell [some 2] [some 0])
            (List.map sc660cell [some 20]) [some 0]).sum /
          (kwWeights (List.zipWith u2cell [some 2] [some 0])
            (List.map sc660cell [some 20]) [some 0]).sum) - 16| ≤
      5e-5 * ((kwNumer (List.zipWith u2cell [some 2] [some 0])
          (List.map sc660cell [some 20]) [some 0]).sum /
        (kwWeights (List.zipWith u2cell [some 2] [some 0])
          (List.map sc660cell [some 20]) [some 0]).sum) := by
  obtain ⟨cells, hok, hA, hbound, hcell⟩ :=
    (claim3_amended_thm [some 2] [some 0] [some 20] [some 0] 16).2
      (List.map (Option.map (fun t => t + 273.15)) [some (20 : ℚ)]) rfl
  refine ⟨⟨cells, hok, ?_⟩, ?_⟩
  · exact hcell 0 2 ((668.344 / 660 : ℝ) ^ (-(0.5) : ℝ)) rfl
      (by simp [sc660_at_20])
  · refine hbound ?_
    simp [kwNumer, kwWeights, kwNumerTerm, kwWeight, u2cell, sc660_at_20]
    positivity

/-- Unfolding of the fCO2 -> pCO2 -> fCO2 round trip at default pressure
and equilibrator temperature: the result is the input times the ratio of two
virial factors, the second evaluated at the re-estimated xCO2. -/
theorem roundtrip_eq (f t : ℝ) :
    pCO2_to_fCO2 (fCO2_to_pCO2 f t 1013.25 none) t none none =
      f * exp ((-1636.75 + 12.0408 * (t + 273.15) -
          0.0327957 * (t + 273.15) ^ 2 + 3.16528e-5 * (t + 273.15) ^ 3 +
          2 * (1 - f * 1e-6 / exp ((-1636.75 + 12.0408 * (t + 273.15) -
            0.0327957 * (t + 273.15) ^ 2 + 3.16528e-5 * (t + 273.15) ^ 3 +
            2 * (1 - f * 1e-6) ^ 2 * (57.7 - 0.118 * (t + 273.15))) /
            (82.057 * (t + 273.15)))) ^ 2 * (57.7 - 0.118 * (t + 273.15))) /
        (82.057 * (t + 273.15))) /
      exp ((-1636.75 + 12.0408 * (t + 273.15) -
        0.0327957 * (t + 273.15) ^ 2 + 3.16528e-5 * (t + 273.15) ^ 3 +
        2 * (1 - f * 1e-6) ^ 2 * (57.7 - 0.118 * (t + 273.15))) /
        (82.057 * (t + 273.15))) := by
  simp only [pCO2_to_fCO2, fCO2_to_pCO2, virial_coeff, temperature_correction,
    checkScalar, Option.getD, sub_self, mul_zero, sub_zero, Real.exp_zero,
    mul_one]
  norm_num
  ring_nf
  done

/-- Second-order exponential bound: for `|x| <= 1`,
`|exp x - (1 + x)| <= 0.75 x^2` (Taylor bound with two terms). -/
theorem exp_near_lin {x : ℝ} (h : |x| ≤ 1) : |exp x - (1 + x)| ≤ 0.75 * x ^ 2 := by
  have h2 := Real.exp_bound h (by norm_num : 0 < 2)
  have hsum : (∑ m ∈ Finset.range 2, x ^ m / m.factorial) = 1 + x := by
    simp [Finset.sum_range_succ, Nat.factorial]
  rw [hsum] at h2
  calc |exp x - (1 + x)| ≤ |x| ^ 2 * ((2 : ℕ).succ / ((2 : ℕ).factorial * 2)) := h2
    _ = 0.75 * x ^ 2 := by
      rw [sq_abs]
      norm_num [Nat.factorial]
      ring

/-- Range of the pure-CO2 virial coefficient `B(T)` on the validated
temperature interval (the polynomial is increasing there, from about -153.6
to about -106.0). -/
theorem B_bounds (T : ℝ) (h1 : 270 ≤ T) (h2 : T ≤ 318.5) :
    -160 ≤ -1636.75 + 12.0408 * T - 0.0327957 * T ^ 2 + 3.16528e-5 * T ^ 3 ∧
    -1636.75 + 12.0408 * T - 0.0327957 * T ^ 2 + 3.16528e-5 * T ^ 3 ≤ -100 := by
  constructor
  · nlinarith [mul_nonneg (sub_nonneg.mpr h1) (sq_nonneg (T - 383.06)),
      sub_nonneg.mpr h1, sq_nonneg (T - 383.06)]
  · nlinarith [mul_nonneg (sub_nonneg.mpr h2) (sq_nonneg (T - 358.8)),
      sub_nonneg.mpr h2, sq_nonneg (T - 358.8)]

/-- Core estimate for the round-trip error: with the virial ingredients in
the ranges they take on the validator domain, the round trip moves any
fugacity below 80000 uatm by at most 0.2 uatm. -/
theorem rt_abs_core (f B d RT : ℝ) (hf0 : 0 < f) (hf1 : f ≤ 80000)
    (hd1 : 20.11 ≤ d) (hd2 : d ≤ 25.84)
    (hB1 : -160 ≤ B) (hB2 : B ≤ -100)
    (hRT1 : 22155 ≤ RT) (hRT2 : RT ≤ 26136) :
    |f * exp ((B + 2 * (1 - f * 1e-6 /
          exp ((B + 2 * (1 - f * 1e-6) ^ 2 * d) / RT)) ^ 2 * d) / RT) /
        exp ((B + 2 * (1 - f * 1e-6) ^ 2 * d) / RT) - f| ≤ 0.2 := by
  have hRTpos : (0 : ℝ) < RT := by linarith
  set F : ℝ := f * 1e-6 with hF_def
  have hF0 : 0 < F := by positivity
  have hF1 : F ≤ 0.08 := by rw [hF_def]; linarith
  set A1 : ℝ := (B + 2 * (1 - F) ^ 2 * d) / RT with hA1_def
  set Fp : ℝ := F / exp A1 with hFp_def
  set A2 : ℝ := (B + 2 * (1 - Fp) ^ 2 * d) / RT with hA2_def
  have hx2lo : 0.8464 ≤ (1 - F) ^ 2 := by nlinarith only [hF0, hF1]
  have hx2hi : (1 - F) ^ 2 ≤ 1 := by nlinarith only [hF0, hF1]
  have hdpos : (0 : ℝ) ≤ d := by linarith only [hd1]
  have hp_lo := mul_le_mul hx2lo hd1 (by norm_num) (by positivity)
  have hp_hi := mul_le_mul hx2hi hd2 hdpos (by norm_num)
  have hnum_lo : -126 ≤ B + 2 * (1 - F) ^ 2 * d := by
    linarith only [hp_lo, hB1]
  have hnum_hi : B + 2 * (1 - F) ^ 2 * d ≤ -48 := by
    linarith only [hp_hi, hB2]
  have hA1neg : A1 < 0 :=
    div_neg_of_neg_of_pos (by linarith only [hnum_hi]) hRTpos
  have hA1lo : -0.0057 ≤ A1 := by
    rw [hA1_def, le_div_iff₀ hRTpos]
    linarith only [hnum_lo, hRT1]
  have hθpos : 0 < -A1 := by linarith only [hA1neg]
  have hθub : -A1 ≤ 0.0057 := by linarith only [hA1lo]
  have habsθ : |(-A1)| ≤ 1 := by
    rw [abs_of_pos hθpos]
    linarith only [hθub]
  have hexpθ_pair := abs_le.mp (exp_near_lin habsθ)
  have hθsq : (-A1) ^ 2 ≤ 0.0057 ^ 2 := pow_le_pow_left hθpos.le hθub 2
  have hexpθ_ub : exp (-A1) ≤ 1.00573 := by
    linarith only [hexpθ_pair.2, hθub, hθsq]
  have hexpθ_lo : 1 ≤ exp (-A1) := Real.one_le_exp (by linarith only [hθpos])
  have hFp_eq : Fp = F * exp (-A1) := by
    rw [hFp_def, Real.exp_neg, div_eq_mul_inv]
  have hFp_lo : F ≤ Fp := by
    rw [hFp_eq]
    have h := mul_le_mul_of_nonneg_left hexpθ_lo hF0.le
    linarith only [h]
  have hFp_hi : Fp ≤ 0.08046 := by
    rw [hFp_eq]
    have h := mul_le_mul hF1 hexpθ_ub (exp_pos _).le (by norm_num)
    linarith only [h]
  have hdiff_lo : 0 ≤ Fp - F := by linarith only [hFp_lo]
  have hdiff : Fp - F ≤ 0.000459 := by
    rw [hFp_eq]
    have h1 : exp (-A1) - 1 ≤ 0.00573 := by linarith only [hexpθ_ub]
    have h := mul_le_mul hF1 h1 (by linarith only [hexpθ_lo]) (by norm_num)
    linarith only [h]
  have hΔeq : A2 - A1 = (2 * d / RT) * ((1 - Fp) ^ 2 - (1 - F) ^ 2) := by
    rw [hA2_def, hA1_def]
    ring
  have hsd_lo : 0 ≤ (Fp - F) * (2 - F - Fp) := by
    apply mul_nonneg hdiff_lo
    linarith only [hF1, hFp_hi]
  have hsd_hi : (Fp - F) * (2 - F - Fp) ≤ 0.000918 := by
    have h := mul_le_mul hdiff
      (by linarith only [hF0, hFp_lo] : 2 - F - Fp ≤ 2)
      (by linarith only [hF1, hFp_hi]) (by norm_num)
    linarith only [h]
  have hcoef_pos : 0 < 2 * d / RT := by positivity
  have hcoef_hi : 2 * d / RT ≤ 0.002333 := by
    rw [div_le_iff₀ hRTpos]
    linarith only [hd2, hRT1]
  have hsq_swap : (1 - Fp) ^ 2 - (1 - F) ^ 2 = -((Fp - F) * (2 - F - Fp)) := by
    ring
  have hΔneg : A2 - A1 ≤ 0 := by
    rw [hΔeq, hsq_swap]
    have h := mul_nonneg hcoef_pos.le hsd_lo
    linarith only [h]
  have hΔlo : -2.15e-6 ≤ A2 - A1 := by
    rw [hΔeq, hsq_swap]
    have h := mul_le_mul hcoef_hi hsd_hi hsd_lo (by norm_num : (0:ℝ) ≤ 0.002333)
    linarith only [h]
  have habsΔ : |A2 - A1| ≤ 1 := by
    rw [abs_le]
    constructor <;> linarith only [hΔneg, hΔlo]
  have hexpΔ := abs_le.mp (exp_near_lin habsΔ)
  have hΔsq : (A2 - A1) ^ 2 ≤ 2.15e-6 ^ 2 := by
    have h : (-(A2 - A1)) ^ 2 ≤ (2.15e-6 : ℝ) ^ 2 :=
      pow_le_pow_left (by linarith only [hΔneg]) (by linarith only [hΔlo]) 2
    calc (A2 - A1) ^ 2 = (-(A2 - A1)) ^ 2 := by ring
      _ ≤ 2.15e-6 ^ 2 := h
  have hE_ub : exp (A2 - A1) - 1 ≤ 2.151e-6 := by
    linarith only [hexpΔ.2, hΔneg, hΔsq]
  have hE_lo : -2.151e-6 ≤ exp (A2 - A1) - 1 := by
    linarith only [hexpΔ.1, hΔlo, hΔsq]
  have hgoal_eq : f * exp A2 / exp A1 - f = f * (exp (A2 - A1) - 1) := by
    rw [Real.exp_sub]
    ring
  rw [hgoal_eq, abs_mul, abs_of_pos hf0]
  have habsE : |exp (A2 - A1) - 1| ≤ 2.151e-6 := abs_le.mpr ⟨hE_lo, hE_ub⟩
  calc f * |exp (A2 - A1) - 1| ≤ 80000 * 2.151e-6 := by
        apply mul_le_mul hf1 habsE (abs_nonneg _) (by norm_num)
    _ ≤ 0.2 := by norm_num

/-- C5 (amended): over the validator domains (fCO2 up to 80000 uatm, i.e.
mole fraction up to 0.08 atm, and seawater temperature with
`T + 273.15` in (270, 318.5)), the round trip
`pCO2_to_fCO2(fCO2_to_pCO2(f, t), t)` differs from `f` by at most 0.2 uatm
(an approximate round trip, not exact equality). -/
theorem claim5_amended_thm (f t : ℝ) (hf0 : 0 < f) (hf1 : f ≤ 80000)
    (hT1 : 270 < t + 273.15) (hT2 : t + 273.15 < 318.5) :
    |pCO2_to_fCO2 (fCO2_to_pCO2 f t 1013.25 none) t none none - f| ≤ 0.2 := by
  rw [roundtrip_eq]
  have hB := B_bounds (t + 273.15) (by linarith) (by linarith)
  exact rt_abs_core f
    (-1636.75 + 12.0408 * (t + 273.15) - 0.0327957 * (t + 273.15) ^ 2 +
      3.16528e-5 * (t + 273.15) ^ 3)
    (57.7 - 0.118 * (t + 273.15)) (82.057 * (t + 273.15)) hf0 hf1
    (by linarith) (by linarith) hB.1 hB.2 (by linarith) (by linarith)

/-- C5 (witness): the amended round-trip bound at the doctest point
`(380 uatm, 8 degrees C)`. -/
theorem claim5_witness :
    |pCO2_to_fCO2 (fCO2_to_pCO2 380 8 1013.25 none) 8 none none - 380| ≤ 0.2 :=
  claim5_amended_thm 380 8 (by norm_num) (by norm_num) (by norm_num)
    (by norm_num)

/-- C5 (counterexample): at `(380 uatm, 8 degrees C)` the round trip
differs from the input by more than 1e-6 uatm (the true error is about
2.44e-6 uatm), refuting the claimed 1e-6 tolerance. -/
theorem claim5_counterexample :
    1e-6 < |pCO2_to_fCO2 (fCO2_to_pCO2 380 8 1013.25 none) 8 none none - 380| := by
  rw [roundtrip_eq]
  set a1 : ℝ := (-1636.75 + 12.0408 * ((8:ℝ) + 273.15) -
      0.0327957 * ((8:ℝ) + 273.15) ^ 2 + 3.16528e-5 * ((8:ℝ) + 273.15) ^ 3 +
      2 * (1 - (380:ℝ) * 1e-6) ^ 2 * (57.7 - 0.118 * ((8:ℝ) + 273.15))) /
      (82.057 * ((8:ℝ) + 273.15)) with ha1_def
  set a2 : ℝ := (-1636.75 + 12.0408 * ((8:ℝ) + 273.15) -
      0.0327957 * ((8:ℝ) + 273.15) ^ 2 + 3.16528e-5 * ((8:ℝ) + 273.15) ^ 3 +
      2 * (1 - (380:ℝ) * 1e-6 / exp a1) ^ 2 *
        (57.7 - 0.118 * ((8:ℝ) + 273.15))) /
      (82.057 * ((8:ℝ) + 273.15)) with ha2_def
  have hθ1 : 0.0039607 ≤ -a1 := by
    rw [ha1_def]
    norm_num
  have hθ2 : -a1 ≤ 0.0039608 := by
    rw [ha1_def]
    norm_num
  have hΔeq : a2 - a1 = (2 * (57.7 - 0.118 * ((8:ℝ) + 273.15)) /
      (82.057 * ((8:ℝ) + 273.15))) *
      ((1 - (380:ℝ) * 1e-6 / exp a1) ^ 2 - (1 - (380:ℝ) * 1e-6) ^ 2) := by
    rw [ha2_def, ha1_def]
    ring
  have hcoef_lo : (0.0021256 : ℝ) ≤ 2 * (57.7 - 0.118 * ((8:ℝ) + 273.15)) /
      (82.057 * ((8:ℝ) + 273.15)) := by norm_num
  have hcoef_hi : 2 * (57.7 - 0.118 * ((8:ℝ) + 273.15)) /
      (82.057 * ((8:ℝ) + 273.15)) ≤ 0.0021268 := by norm_num
  set coef : ℝ := 2 * (57.7 - 0.118 * ((8:ℝ) + 273.15)) /
      (82.057 * ((8:ℝ) + 273.15)) with hcoef_def
  clear_value a1 a2 coef
  have habsθ : |(-a1)| ≤ 1 := by
    rw [abs_of_pos (by linarith only [hθ1])]
    linarith only [hθ2]
  have hexpθ_pair := abs_le.mp (exp_near_lin habsθ)
  have hθsq : (-a1) ^ 2 ≤ 0.0039608 ^ 2 :=
    pow_le_pow_left (by linarith only [hθ1]) hθ2 2
  have hexpθ_ub : exp (-a1) ≤ 1.0039726 := by
    linarith only [hexpθ_pair.2, hθ2, hθsq]
  have hexpθ_lo : 1.0039607 ≤ exp (-a1) := by
    have h := Real.add_one_le_exp (-a1)
    linarith only [h, hθ1]
  have hFp_eq : (380:ℝ) * 1e-6 / exp a1 = 0.00038 * exp (-a1) := by
    rw [Real.exp_neg, div_eq_mul_inv]
    norm_num
  set Fp : ℝ := (380:ℝ) * 1e-6 / exp a1 with hFp_def
  have hFp_lo : 0.000381505 ≤ Fp := by
    rw [hFp_eq]
    linarith only [hexpθ_lo]
  have hFp_hi : Fp ≤ 0.00038151 := by
    rw [hFp_eq]
    linarith only [hexpθ_ub]
  have hd_lo : (1.505065e-6 : ℝ) ≤ Fp - 0.00038 := by
    rw [hFp_eq]
    linarith only [hexpθ_lo]
  have hd_hi : Fp - 0.00038 ≤ 1.50959e-6 := by
    rw [hFp_eq]
    linarith only [hexpθ_ub]
  have hsq_swap : (1 - Fp) ^ 2 - (1 - (380:ℝ) * 1e-6) ^ 2 =
      -((Fp - 0.00038) * (2 - 0.00038 - Fp)) := by
    have h38 : (380:ℝ) * 1e-6 = 0.00038 := by norm_num
    rw [h38]
    ring
  have htwo_lo : (1.99923 : ℝ) ≤ 2 - 0.00038 - Fp := by
    linarith only [hFp_hi]
  have htwo_hi : 2 - 0.00038 - Fp ≤ 2 := by
    linarith only [hFp_lo]
  have hsd_lo : (3.0089e-6 : ℝ) ≤ (Fp - 0.00038) * (2 - 0.00038 - Fp) := by
    have h := mul_le_mul hd_lo htwo_lo (by norm_num)
      (by linarith only [hd_lo] : (0:ℝ) ≤ Fp - 0.00038)
    linarith only [h]
  have hsd_hi : (Fp - 0.00038) * (2 - 0.00038 - Fp) ≤ 3.0192e-6 := by
    have h := mul_le_mul hd_hi htwo_hi
      (by linarith only [htwo_lo]) (by norm_num)
    linarith only [h]
  have hΔ_hi : a2 - a1 ≤ -6.3957e-9 := by
    rw [hΔeq, hsq_swap]
    have h := mul_le_mul hcoef_lo hsd_lo (by norm_num)
      (by linarith only [hcoef_lo])
    linarith only [h]
  have hΔ_lo : -6.4217e-9 ≤ a2 - a1 := by
    rw [hΔeq, hsq_swap]
    have h := mul_le_mul hcoef_hi hsd_hi
      (by linarith only [hsd_lo]) (by norm_num)
    linarith only [h]
  have habsΔ : |a2 - a1| ≤ 1 := by
    rw [abs_le]
    constructor <;> linarith only [hΔ_hi, hΔ_lo]
  have hexpΔ := abs_le.mp (exp_near_lin habsΔ)
  have hΔsq : (a2 - a1) ^ 2 ≤ 6.4217e-9 ^ 2 := by
    have h : (-(a2 - a1)) ^ 2 ≤ (6.4217e-9 : ℝ) ^ 2 :=
      pow_le_pow_left (by linarith only [hΔ_hi]) (by linarith only [hΔ_lo]) 2
    calc (a2 - a1) ^ 2 = (-(a2 - a1)) ^ 2 := by ring
      _ ≤ 6.4217e-9 ^ 2 := h
  have hE_ub : exp (a2 - a1) - 1 ≤ -6.3956e-9 := by
    linarith only [hexpΔ.2, hΔ_hi, hΔsq]
  have hgoal_eq : (380:ℝ) * exp a2 / exp a1 - 380 =
      380 * (exp (a2 - a1) - 1) := by
    rw [Real.exp_sub]
    ring
  rw [hgoal_eq]
  have hneg : (380:ℝ) * (exp (a2 - a1) - 1) < 0 := by nlinarith only [hE_ub]
  rw [abs_of_neg hneg]
  nlinarith only [hE_ub]

/-- Order-8 Taylor lower bound of the exponential for nonnegative input. -/
theorem exp_taylor8_lb (x : ℝ) (h0 : 0 ≤ x) :
    1 + x + x ^ 2 / 2 + x ^ 3 / 6 + x ^ 4 / 24 + x ^ 5 / 120 + x ^ 6 / 720 +
      x ^ 7 / 5040 ≤ exp x := by
  have h := Real.sum_le_exp_of_nonneg h0 8
  have hsum : (∑ i ∈ Finset.range 8, x ^ i / i.factorial) =
      1 + x + x ^ 2 / 2 + x ^ 3 / 6 + x ^ 4 / 24 + x ^ 5 / 120 + x ^ 6 / 720 +
        x ^ 7 / 5040 := by
    simp [Finset.sum_range_succ, Nat.factorial]
  rwa [hsum] at h

/-- Order-8 Taylor upper bound of the exponential on the unit interval. -/
theorem exp_taylor8_ub (x : ℝ) (h0 : 0 ≤ x) (h1 : x ≤ 1) :
    exp x ≤ 1 + x + x ^ 2 / 2 + x ^ 3 / 6 + x ^ 4 / 24 + x ^ 5 / 120 +
      x ^ 6 / 720 + x ^ 7 / 5040 + x ^ 8 * (9 / 322560) := by
  have h := Real.exp_bound' h0 h1 (by norm_num : 0 < 8)
  have hsum : (∑ i ∈ Finset.range 8, x ^ i / i.factorial) =
      1 + x + x ^ 2 / 2 + x ^ 3 / 6 + x ^ 4 / 24 + x ^ 5 / 120 + x ^ 6 / 720 +
        x ^ 7 / 5040 := by
    simp [Finset.sum_range_succ, Nat.factorial]
  rw [hsum] at h
  calc exp x ≤ 1 + x + x ^ 2 / 2 + x ^ 3 / 6 + x ^ 4 / 24 + x ^ 5 / 120 +
        x ^ 6 / 720 + x ^ 7 / 5040 + x ^ 8 * (8 + 1) / ((8 : ℕ).factorial * 8) := h
    _ = 1 + x + x ^ 2 / 2 + x ^ 3 / 6 + x ^ 4 / 24 + x ^ 5 / 120 + x ^ 6 / 720 +
        x ^ 7 / 5040 + x ^ 8 * (9 / 322560) := by
      norm_num [Nat.factorial]
      ring

/-- The exponential at 3 as the cube of the exponential at 1. -/
theorem exp_three_eq : exp (3 : ℝ) = exp 1 ^ 3 := by
  have h : (3 : ℝ) = ((3 : ℕ) : ℝ) * 1 := by norm_num
  rw [h, Real.exp_nat_mul]

/-- Anchor bound `log 2.9915 > 1.09577493` (the true value is about
1.095774934). -/
theorem log29915_lb : (1.09577493 : ℝ) < log 2.9915 := by
  rw [Real.lt_log_iff_exp_lt (by norm_num : (0:ℝ) < 2.9915)]
  have hsplit : (1.09577493 : ℝ) = 1 + 0.09577493 := by norm_num
  rw [hsplit, Real.exp_add]
  have ht := exp_taylor8_ub 0.09577493 (by norm_num) (by norm_num)
  have he := Real.exp_one_lt_d9
  have hub : (0:ℝ) < 1 + 0.09577493 + 0.09577493 ^ 2 / 2 + 0.09577493 ^ 3 / 6 +
      0.09577493 ^ 4 / 24 + 0.09577493 ^ 5 / 120 + 0.09577493 ^ 6 / 720 +
      0.09577493 ^ 7 / 5040 + 0.09577493 ^ 8 * (9 / 322560) := by positivity
  calc exp 1 * exp 0.09577493
      ≤ exp 1 * (1 + 0.09577493 + 0.09577493 ^ 2 / 2 + 0.09577493 ^ 3 / 6 +
        0.09577493 ^ 4 / 24 + 0.09577493 ^ 5 / 120 + 0.09577493 ^ 6 / 720 +
        0.09577493 ^ 7 / 5040 + 0.09577493 ^ 8 * (9 / 322560)) :=
        mul_le_mul_of_nonneg_left ht (exp_pos 1).le
    _ < 2.7182818286 * (1 + 0.09577493 + 0.09577493 ^ 2 / 2 + 0.09577493 ^ 3 / 6 +
        0.09577493 ^ 4 / 24 + 0.09577493 ^ 5 / 120 + 0.09577493 ^ 6 / 720 +
        0.09577493 ^ 7 / 5040 + 0.09577493 ^ 8 * (9 / 322560)) :=
        (mul_lt_mul_right hub).mpr he
    _ < 2.9915 := by norm_num

/-- Anchor bound `log 2.9915 < 1.09577494`. -/
theorem log29915_ub : log 2.9915 < 1.09577494 := by
  rw [Real.log_lt_iff_lt_exp (by norm_num : (0:ℝ) < 2.9915)]
  have hsplit : (1.09577494 : ℝ) = 1 + 0.09577494 := by norm_num
  rw [hsplit, Real.exp_add]
  have ht := exp_taylor8_lb 0.09577494 (by norm_num)
  have he := Real.exp_one_gt_d9
  have hlb : (0:ℝ) < 1 + 0.09577494 + 0.09577494 ^ 2 / 2 + 0.09577494 ^ 3 / 6 +
      0.09577494 ^ 4 / 24 + 0.09577494 ^ 5 / 120 + 0.09577494 ^ 6 / 720 +
      0.09577494 ^ 7 / 5040 := by positivity
  calc (2.9915 : ℝ)
      < 2.7182818283 * (1 + 0.09577494 + 0.09577494 ^ 2 / 2 + 0.09577494 ^ 3 / 6 +
        0.09577494 ^ 4 / 24 + 0.09577494 ^ 5 / 120 + 0.09577494 ^ 6 / 720 +
        0.09577494 ^ 7 / 5040) := by norm_num
    _ < exp 1 * (1 + 0.09577494 + 0.09577494 ^ 2 / 2 + 0.09577494 ^ 3 / 6 +
        0.09577494 ^ 4 / 24 + 0.09577494 ^ 5 / 120 + 0.09577494 ^ 6 / 720 +
        0.09577494 ^ 7 / 5040) := (mul_lt_mul_right hlb).mpr he
    _ ≤ exp 1 * exp 0.09577494 :=
        mul_le_mul_of_nonneg_left ht (exp_pos 1).le

/-- Upper anchor for the solubility exponential. -/
theorem exp_neg35637419_ub : exp (-3.5637419 : ℝ) ≤ 0.0283327 := by
  rw [show (-3.5637419 : ℝ) = -(3 + 0.5637419) by norm_num, Real.exp_neg,
    Real.exp_add, exp_three_eq]
  have h1 := exp_taylor8_lb 0.5637419 (by norm_num)
  have hcube : (2.7182818283 : ℝ) ^ 3 ≤ exp 1 ^ 3 :=
    pow_le_pow_left (by norm_num) Real.exp_one_gt_d9.le 3
  have hprod : (2.7182818283 : ℝ) ^ 3 *
      (1 + 0.5637419 + 0.5637419 ^ 2 / 2 + 0.5637419 ^ 3 / 6 +
        0.5637419 ^ 4 / 24 + 0.5637419 ^ 5 / 120 + 0.5637419 ^ 6 / 720 +
        0.5637419 ^ 7 / 5040) ≤ exp 1 ^ 3 * exp 0.5637419 :=
    mul_le_mul hcube h1 (by positivity) (by positivity)
  calc (exp 1 ^ 3 * exp 0.5637419)⁻¹
      ≤ ((2.7182818283 : ℝ) ^ 3 *
        (1 + 0.5637419 + 0.5637419 ^ 2 / 2 + 0.5637419 ^ 3 / 6 +
          0.5637419 ^ 4 / 24 + 0.5637419 ^ 5 / 120 + 0.5637419 ^ 6 / 720 +
          0.5637419 ^ 7 / 5040))⁻¹ := by
        apply inv_le_inv_of_le (by positivity) hprod
    _ ≤ 0.0283327 := by norm_num

/-- Lower anchor for the solubility exponential. -/
theorem exp_neg35637422_lb : (0.0283325 : ℝ) ≤ exp (-3.5637422 : ℝ) := by
  rw [show (-3.5637422 : ℝ) = -(3 + 0.5637422) by norm_num, Real.exp_neg,
    Real.exp_add, exp_three_eq]
  have h1 := exp_taylor8_ub 0.5637422 (by norm_num) (by norm_num)
  have hcube : exp 1 ^ 3 ≤ (2.7182818286 : ℝ) ^ 3 :=
    pow_le_pow_left (exp_pos 1).le Real.exp_one_lt_d9.le 3
  have hprod : exp 1 ^ 3 * exp 0.5637422 ≤ (2.7182818286 : ℝ) ^ 3 *
      (1 + 0.5637422 + 0.5637422 ^ 2 / 2 + 0.5637422 ^ 3 / 6 +
        0.5637422 ^ 4 / 24 + 0.5637422 ^ 5 / 120 + 0.5637422 ^ 6 / 720 +
        0.5637422 ^ 7 / 5040 + 0.5637422 ^ 8 * (9 / 322560)) :=
    mul_le_mul hcube h1 (exp_pos _).le (by positivity)
  calc (0.0283325 : ℝ)
      ≤ ((2.7182818286 : ℝ) ^ 3 *
        (1 + 0.5637422 + 0.5637422 ^ 2 / 2 + 0.5637422 ^ 3 / 6 +
          0.5637422 ^ 4 / 24 + 0.5637422 ^ 5 / 120 + 0.5637422 ^ 6 / 720 +
          0.5637422 ^ 7 / 5040 + 0.5637422 ^ 8 * (9 / 322560)))⁻¹ := by
        norm_num
    _ ≤ (exp 1 ^ 3 * exp 0.5637422)⁻¹ := by
        apply inv_le_inv_of_le (by positivity) hprod

/-- Upper anchor for the vapour-pressure exponential. -/
theorem exp_neg34255610_ub : exp (-3.4255610 : ℝ) ≤ 0.032532 := by
  rw [show (-3.4255610 : ℝ) = -(3 + 0.4255610) by norm_num, Real.exp_neg,
    Real.exp_add, exp_three_eq]
  have h1 := exp_taylor8_lb 0.4255610 (by norm_num)
  have hcube : (2.7182818283 : ℝ) ^ 3 ≤ exp 1 ^ 3 :=
    pow_le_pow_left (by norm_num) Real.exp_one_gt_d9.le 3
  have hprod : (2.7182818283 : ℝ) ^ 3 *
      (1 + 0.4255610 + 0.4255610 ^ 2 / 2 + 0.4255610 ^ 3 / 6 +
        0.4255610 ^ 4 / 24 + 0.4255610 ^ 5 / 120 + 0.4255610 ^ 6 / 720 +
        0.4255610 ^ 7 / 5040) ≤ exp 1 ^ 3 * exp 0.4255610 :=
    mul_le_mul hcube h1 (by positivity) (by positivity)
  calc (exp 1 ^ 3 * exp 0.4255610)⁻¹
      ≤ ((2.7182818283 : ℝ) ^ 3 *
        (1 + 0.4255610 + 0.4255610 ^ 2 / 2 + 0.4255610 ^ 3 / 6 +
          0.4255610 ^ 4 / 24 + 0.4255610 ^ 5 / 120 + 0.4255610 ^ 6 / 720 +
          0.4255610 ^ 7 / 5040))⁻¹ := by
        apply inv_le_inv_of_le (by positivity) hprod
    _ ≤ 0.032532 := by norm_num

/-- Lower anchor for the vapour-pressure exponential. -/
theorem exp_neg34255611_lb : (0.032530 : ℝ) ≤ exp (-3.4255611 : ℝ) := by
  rw [show (-3.4255611 : ℝ) = -(3 + 0.4255611) by norm_num, Real.exp_neg,
    Real.exp_add, exp_three_eq]
  have h1 := exp_taylor8_ub 0.4255611 (by norm_num) (by norm_num)
  have hcube : exp 1 ^ 3 ≤ (2.7182818286 : ℝ) ^ 3 :=
    pow_le_pow_left (exp_pos 1).le Real.exp_one_lt_d9.le 3
  have hprod : exp 1 ^ 3 * exp 0.4255611 ≤ (2.7182818286 : ℝ) ^ 3 *
      (1 + 0.4255611 + 0.4255611 ^ 2 / 2 + 0.4255611 ^ 3 / 6 +
        0.4255611 ^ 4 / 24 + 0.4255611 ^ 5 / 120 + 0.4255611 ^ 6 / 720 +
        0.4255611 ^ 7 / 5040 + 0.4255611 ^ 8 * (9 / 322560)) :=
    mul_le_mul hcube h1 (exp_pos _).le (by positivity)
  calc (0.032530 : ℝ)
      ≤ ((2.7182818286 : ℝ) ^ 3 *
        (1 + 0.4255611 + 0.4255611 ^ 2 / 2 + 0.4255611 ^ 3 / 6 +
          0.4255611 ^ 4 / 24 + 0.4255611 ^ 5 / 120 + 0.4255611 ^ 6 / 720 +
          0.4255611 ^ 7 / 5040 + 0.4255611 ^ 8 * (9 / 322560)))⁻¹ := by
        norm_num
    _ ≤ (exp 1 ^ 3 * exp 0.4255611)⁻¹ := by
        apply inv_le_inv_of_le (by positivity) hprod

/-- C9: `solubility_weiss1974` is exactly the Weiss (1974) formula
`exp(a1 + a2*(100/T) + a3*log(T/100) + S*(b1 + b2*(T/100) + b3*(T/100)^2))`
divided by `(P - pH2O(S, T))` with the Wanninkhof (2014) coefficients and
the Weiss & Price (1980) vapour pressure; and its value at
`(S, T, P) = (35, 299.15, 1)` agrees with the documented reference value
0.029285284543519093 mol/L/atm to within 1e-6 (the proof brackets it in
[0.0292851, 0.0292855] by interval arithmetic on the exponentials). -/
theorem claim9_thm :
    (∀ S T P : ℝ, solubility_weiss1974 S T P =
      exp (-58.0931 + 90.5069 * (100 / T) + 22.2940 * log (T / 100) +
        S * (0.027766 + (-0.025888) * (T / 100) + 0.0050578 * (T / 100) ^ 2)) /
      (P - weiss1980 S T)) ∧
    |solubility_weiss1974 35 299.15 1 - 0.029285284543519093| < 1e-6 := by
  constructor
  · intro S T P
    rfl
  · have hlog : ((299.15 : ℝ) / 100) = 2.9915 := by norm_num
    have hK : solubility_weiss1974 35 299.15 1 =
        exp (-58.0931 + 90.5069 * (100 / 299.15) + 22.2940 * log 2.9915 +
          35 * (0.027766 + (-0.025888) * 2.9915 + 0.0050578 * 2.9915 ^ 2)) /
        (1 - exp (24.4543 - 67.4509 * (100 / 299.15) - 4.8489 * log 2.9915 -
          0.000544 * 35)) := by
      simp only [solubility_weiss1974, weiss1980, checkScalar, hlog]
    rw [hK]
    have hL1 := log29915_lb
    have hL2 := log29915_ub
    have hAE_hi : -58.0931 + 90.5069 * (100 / 299.15) + 22.2940 * log 2.9915 +
        35 * (0.027766 + (-0.025888) * 2.9915 + 0.0050578 * 2.9915 ^ 2) ≤
        -3.5637419 := by
      nlinarith [hL2]
    have hAE_lo : (-3.5637422 : ℝ) ≤
        -58.0931 + 90.5069 * (100 / 299.15) + 22.2940 * log 2.9915 +
        35 * (0.027766 + (-0.025888) * 2.9915 + 0.0050578 * 2.9915 ^ 2) := by
      nlinarith [hL1]
    have hAP_hi : 24.4543 - 67.4509 * (100 / 299.15) - 4.8489 * log 2.9915 -
        0.000544 * 35 ≤ -3.4255610 := by
      nlinarith [hL1]
    have hAP_lo : (-3.4255611 : ℝ) ≤
        24.4543 - 67.4509 * (100 / 299.15) - 4.8489 * log 2.9915 -
        0.000544 * 35 := by
      nlinarith [hL2]
    have hE_hi : exp (-58.0931 + 90.5069 * (100 / 299.15) + 22.2940 * log 2.9915 +
        35 * (0.027766 + (-0.025888) * 2.9915 + 0.0050578 * 2.9915 ^ 2)) ≤
        0.0283327 :=
      le_trans (exp_le_exp.mpr hAE_hi) exp_neg35637419_ub
    have hE_lo : (0.0283325 : ℝ) ≤
        exp (-58.0931 + 90.5069 * (100 / 299.15) + 22.2940 * log 2.9915 +
        35 * (0.027766 + (-0.025888) * 2.9915 + 0.0050578 * 2.9915 ^ 2)) :=
      le_trans exp_neg35637422_lb (exp_le_exp.mpr hAE_lo)
    have hp_hi : exp (24.4543 - 67.4509 * (100 / 299.15) - 4.8489 * log 2.9915 -
        0.000544 * 35) ≤ 0.032532 :=
      le_trans (exp_le_exp.mpr hAP_hi) exp_neg34255610_ub
    have hp_lo : (0.032530 : ℝ) ≤
        exp (24.4543 - 67.4509 * (100 / 299.15) - 4.8489 * log 2.9915 -
        0.000544 * 35) :=
      le_trans exp_neg34255611_lb (exp_le_exp.mpr hAP_lo)
    set E : ℝ := exp (-58.0931 + 90.5069 * (100 / 299.15) + 22.2940 * log 2.9915 +
        35 * (0.027766 + (-0.025888) * 2.9915 + 0.0050578 * 2.9915 ^ 2)) with hE_def
    set p : ℝ := exp (24.4543 - 67.4509 * (100 / 299.15) - 4.8489 * log 2.9915 -
        0.000544 * 35) with hp_def
    clear_value E p
    have hden_lo : (0.967468 : ℝ) ≤ 1 - p := by linarith only [hp_hi]
    have hden_hi : 1 - p ≤ 0.96747 := by linarith only [hp_lo]
    have hden_pos : (0 : ℝ) < 1 - p := by linarith only [hden_lo]
    have hub : E / (1 - p) ≤ 0.0283327 / 0.967468 :=
      div_le_div (by norm_num) hE_hi (by norm_num) hden_lo
    have hlb : (0.0283325 : ℝ) / 0.96747 ≤ E / (1 - p) :=
      div_le_div (by linarith only [hE_lo]) hE_lo hden_pos hden_hi
    rw [abs_lt]
    constructor
    · have h := hlb
      have hnum : (0.029285284543519093 : ℝ) - 1e-6 < 0.0283325 / 0.96747 := by
        norm_num
      linarith only [h, hnum]
    · have h := hub
      have hnum : (0.0283327 : ℝ) / 0.967468 < 0.029285284543519093 + 1e-6 := by
        norm_num
      linarith only [h, hnum]

end SeaFlux
